import Mathlib

/-!
Verification development for the wattpilot-api client library.

Python byte strings and (ASCII) text strings handled by the hashing layer are
modeled as `List Nat` with entries below 256; `str.encode()` is the identity
under this representation.  The cryptographic primitives the source calls
through `hashlib`, `hmac` and `base64` are modeled from their standards
(FIPS 180-4, RFC 2104, RFC 8018, RFC 4648); the SHA-2 round constants are
computed from their defining property (fractional parts of roots of primes)
rather than transcribed.
-/

set_option maxRecDepth 10000

abbrev Bytes := List Nat

/-- ASCII byte sequence of a Lean string literal.  Used to write the byte-level
model of the repository's ASCII string constants. -/
def strBytes (s : String) : Bytes := s.data.map Char.toNat

/-- Big-endian byte serialization: `beBytes k w` is the `k`-byte big-endian
encoding of `w` (mod `2 ^ (8 * k)`). -/
def beBytes : Nat → Nat → Bytes
  | 0, _ => []
  | k + 1, w => (w / 2 ^ (8 * k)) % 256 :: beBytes k w

/-- Big-endian value of a byte list. -/
def beVal (bs : Bytes) : Nat := bs.foldl (fun a b => a * 256 + b) 0

/-- Split a byte list into consecutive chunks of `size` bytes (the list length
is assumed to be a multiple of `size`, as the SHA-2 padding guarantees). -/
def chunks (size : Nat) (bs : Bytes) : List Bytes :=
  (List.range (bs.length / size)).map (fun i => (bs.drop (size * i)).take size)

/-- Fuel-bounded binary search for the integer square root
(largest `k` with `k * k ≤ n`, provided the fuel and bracket suffice). -/
def isqrtGo (n : Nat) : Nat → Nat → Nat → Nat
  | 0, lo, _ => lo
  | fuel + 1, lo, hi =>
    let mid := (lo + hi) / 2
    if mid = lo then lo
    else if mid * mid ≤ n then isqrtGo n fuel mid hi
    else isqrtGo n fuel lo mid

/-- Integer square root of numbers up to `2 ^ 260`. -/
def isqrt (n : Nat) : Nat := isqrtGo n 140 0 (2 ^ 131)

/-- Fuel-bounded binary search for the integer cube root. -/
def icbrtGo (n : Nat) : Nat → Nat → Nat → Nat
  | 0, lo, _ => lo
  | fuel + 1, lo, hi =>
    let mid := (lo + hi) / 2
    if mid = lo then lo
    else if mid * mid * mid ≤ n then icbrtGo n fuel mid hi
    else icbrtGo n fuel lo mid

/-- Integer cube root of numbers up to `2 ^ 240`. -/
def icbrt (n : Nat) : Nat := icbrtGo n 90 0 (2 ^ 81)

/-- The first 80 primes; FIPS 180-4 defines the SHA-2 constants from their
square and cube roots. -/
def primes80 : List Nat :=
  [2, 3, 5, 7, 11, 13, 17, 19, 23, 29, 31, 37, 41, 43, 47, 53, 59, 61, 67, 71,
   73, 79, 83, 89, 97, 101, 103, 107, 109, 113, 127, 131, 137, 139, 149, 151,
   157, 163, 167, 173, 179, 181, 191, 193, 197, 199, 211, 223, 227, 229, 233,
   239, 241, 251, 257, 263, 269, 271, 277, 281, 283, 293, 307, 311, 313, 317,
   331, 337, 347, 349, 353, 359, 367, 373, 379, 383, 389, 397, 401, 409]

/-- SHA-256 round constants: first 32 bits of the fractional parts of the cube
roots of the first 64 primes. -/
def sha256K : List Nat := (primes80.take 64).map (fun p => icbrt (p * 2 ^ 96) % 2 ^ 32)

/-- SHA-256 initial hash value: first 32 bits of the fractional parts of the
square roots of the first 8 primes. -/
def sha256H0 : List Nat := (primes80.take 8).map (fun p => isqrt (p * 2 ^ 64) % 2 ^ 32)

/-- SHA-512 round constants: first 64 bits of the fractional parts of the cube
roots of the first 80 primes. -/
def sha512K : List Nat := primes80.map (fun p => icbrt (p * 2 ^ 192) % 2 ^ 64)

/-- SHA-512 initial hash value: first 64 bits of the fractional parts of the
square roots of the first 8 primes. -/
def sha512H0 : List Nat := (primes80.take 8).map (fun p => isqrt (p * 2 ^ 128) % 2 ^ 64)

/-- Right rotation of a `w`-bit word. -/
def rotr (w x n : Nat) : Nat := x / 2 ^ n + x % 2 ^ n * 2 ^ (w - n)

/-- Bitwise complement of a `w`-bit word. -/
def wnot (w x : Nat) : Nat := x ^^^ (2 ^ w - 1)

/-- The eight-word working state of a SHA-2 compression. -/
structure H8 where
  a : Nat
  b : Nat
  c : Nat
  d : Nat
  e : Nat
  f : Nat
  g : Nat
  h : Nat

/-- Initial state from a list of eight words. -/
def h8OfList (l : List Nat) : H8 :=
  ⟨l.getD 0 0, l.getD 1 0, l.getD 2 0, l.getD 3 0,
   l.getD 4 0, l.getD 5 0, l.getD 6 0, l.getD 7 0⟩

/-- Word-wise modular sum of two states. -/
def h8Add (w : Nat) (x y : H8) : H8 :=
  ⟨(x.a + y.a) % 2 ^ w, (x.b + y.b) % 2 ^ w, (x.c + y.c) % 2 ^ w,
   (x.d + y.d) % 2 ^ w, (x.e + y.e) % 2 ^ w, (x.f + y.f) % 2 ^ w,
   (x.g + y.g) % 2 ^ w, (x.h + y.h) % 2 ^ w⟩

/-- The 16 big-endian words (of `wb` bytes each) of one message block. -/
def blockWords (wb : Nat) (block : Bytes) : List Nat :=
  (List.range 16).map (fun i => beVal ((block.drop (wb * i)).take wb))

/-- SHA-2 message padding: a `0x80` byte, zeros up to `lenSlot` bytes short of
a multiple of `blockSize`, then the bit length on `lenSlot` big-endian bytes. -/
def sha2Pad (blockSize lenSlot : Nat) (msg : Bytes) : Bytes :=
  let l := msg.length
  let zeros := (blockSize + (blockSize - lenSlot) - (l + 1) % blockSize) % blockSize
  msg ++ 128 :: List.replicate zeros 0 ++ beBytes lenSlot (8 * l)

/-- SHA-256 message-schedule extension: `rws` holds the scheduled words most
recent first; each step prepends one new word. -/
def sha256Ext : List Nat → Nat → List Nat
  | rws, 0 => rws
  | rws, n + 1 =>
    let w2 := rws.getD 1 0
    let w7 := rws.getD 6 0
    let w15 := rws.getD 14 0
    let w16 := rws.getD 15 0
    let s0 := rotr 32 w15 7 ^^^ rotr 32 w15 18 ^^^ (w15 >>> 3)
    let s1 := rotr 32 w2 17 ^^^ rotr 32 w2 19 ^^^ (w2 >>> 10)
    sha256Ext ((w16 + s0 + w7 + s1) % 2 ^ 32 :: rws) n

/-- One SHA-256 round with round constant `k` and scheduled word `w`. -/
def sha256Round (st : H8) (k w : Nat) : H8 :=
  let s1 := rotr 32 st.e 6 ^^^ rotr 32 st.e 11 ^^^ rotr 32 st.e 25
  let ch := (st.e &&& st.f) ^^^ (wnot 32 st.e &&& st.g)
  let t1 := (st.h + s1 + ch + k + w) % 2 ^ 32
  let s0 := rotr 32 st.a 2 ^^^ rotr 32 st.a 13 ^^^ rotr 32 st.a 22
  let maj := (st.a &&& st.b) ^^^ (st.a &&& st.c) ^^^ (st.b &&& st.c)
  let t2 := (s0 + maj) % 2 ^ 32
  ⟨(t1 + t2) % 2 ^ 32, st.a, st.b, st.c, (st.d + t1) % 2 ^ 32, st.e, st.f, st.g⟩

/-- SHA-256 compression of one 64-byte block. -/
def sha256Compress (st : H8) (block : Bytes) : H8 :=
  let ws := (sha256Ext (blockWords 4 block).reverse 48).reverse
  let st' := (List.zip sha256K ws).foldl (fun s p => sha256Round s p.1 p.2) st
  h8Add 32 st st'

/-- Big-endian serialization of the final SHA-2 state, `wb` bytes per word. -/
def h8Bytes (wb : Nat) (st : H8) : Bytes :=
  beBytes wb st.a ++ beBytes wb st.b ++ beBytes wb st.c ++ beBytes wb st.d ++
  beBytes wb st.e ++ beBytes wb st.f ++ beBytes wb st.g ++ beBytes wb st.h

/-- SHA-256 digest (32 bytes).  Models `hashlib.sha256(msg).digest()`. -/
def sha256Bytes (msg : Bytes) : Bytes :=
  h8Bytes 4 ((chunks 64 (sha2Pad 64 8 msg)).foldl sha256Compress (h8OfList sha256H0))

/-- SHA-512 message-schedule extension (words most recent first). -/
def sha512Ext : List Nat → Nat → List Nat
  | rws, 0 => rws
  | rws, n + 1 =>
    let w2 := rws.getD 1 0
    let w7 := rws.getD 6 0
    let w15 := rws.getD 14 0
    let w16 := rws.getD 15 0
    let s0 := rotr 64 w15 1 ^^^ rotr 64 w15 8 ^^^ (w15 >>> 7)
    let s1 := rotr 64 w2 19 ^^^ rotr 64 w2 61 ^^^ (w2 >>> 6)
    sha512Ext ((w16 + s0 + w7 + s1) % 2 ^ 64 :: rws) n

/-- One SHA-512 round. -/
def sha512Round (st : H8) (k w : Nat) : H8 :=
  let s1 := rotr 64 st.e 14 ^^^ rotr 64 st.e 18 ^^^ rotr 64 st.e 41
  let ch := (st.e &&& st.f) ^^^ (wnot 64 st.e &&& st.g)
  let t1 := (st.h + s1 + ch + k + w) % 2 ^ 64
  let s0 := rotr 64 st.a 28 ^^^ rotr 64 st.a 34 ^^^ rotr 64 st.a 39
  let maj := (st.a &&& st.b) ^^^ (st.a &&& st.c) ^^^ (st.b &&& st.c)
  let t2 := (s0 + maj) % 2 ^ 64
  ⟨(t1 + t2) % 2 ^ 64, st.a, st.b, st.c, (st.d + t1) % 2 ^ 64, st.e, st.f, st.g⟩

/-- SHA-512 compression of one 128-byte block. -/
def sha512Compress (st : H8) (block : Bytes) : H8 :=
  let ws := (sha512Ext (blockWords 8 block).reverse 64).reverse
  let st' := (List.zip sha512K ws).foldl (fun s p => sha512Round s p.1 p.2) st
  h8Add 64 st st'

/-- SHA-512 digest (64 bytes).  Models `hashlib.sha512` (the PRF inside
`hashlib.pbkdf2_hmac("sha512", ...)`). -/
def sha512Bytes (msg : Bytes) : Bytes :=
  h8Bytes 8 ((chunks 128 (sha2Pad 128 16 msg)).foldl sha512Compress (h8OfList sha512H0))

/-- Lowercase hexadecimal digit (ASCII code) of a value below 16. -/
def hexChar (n : Nat) : Nat := if n < 10 then 48 + n else 87 + n

/-- Lowercase hexadecimal rendering of a byte string as ASCII codes.
Models Python's `.hexdigest()` applied to the corresponding digest. -/
def hexAscii : Bytes → Bytes
  | [] => []
  | b :: bs => hexChar (b / 16) :: hexChar (b % 16) :: hexAscii bs

/-- Pointwise xor of two byte strings (length = the shorter of the two). -/
def xorBytes (x y : Bytes) : Bytes := (List.zip x y).map (fun p => p.1 ^^^ p.2)

/-- HMAC-SHA256 (RFC 2104, block size 64).  Models `hmac.new(key, msg,
hashlib.sha256).digest()`. -/
def hmacSha256 (key msg : Bytes) : Bytes :=
  let k0 := if 64 < key.length then sha256Bytes key else key
  let kp := k0 ++ List.replicate (64 - k0.length) 0
  sha256Bytes (kp.map (fun b => b ^^^ 92) ++ sha256Bytes (kp.map (fun b => b ^^^ 54) ++ msg))

/-- HMAC-SHA512 (RFC 2104, block size 128). -/
def hmacSha512 (key msg : Bytes) : Bytes :=
  let k0 := if 128 < key.length then sha512Bytes key else key
  let kp := k0 ++ List.replicate (128 - k0.length) 0
  sha512Bytes (kp.map (fun b => b ^^^ 92) ++ sha512Bytes (kp.map (fun b => b ^^^ 54) ++ msg))

/-- The iterated part of one PBKDF2 block: starting from `u`, applies the PRF
`n` more times, xor-accumulating into `acc`. -/
def pbkdf2Iter (password : Bytes) : Nat → Bytes → Bytes → Bytes
  | 0, _, acc => acc
  | n + 1, u, acc =>
    let u' := hmacSha512 password u
    pbkdf2Iter password n u' (xorBytes acc u')

/-- Block `i` (1-based) of PBKDF2-HMAC-SHA512 with `c` iterations. -/
def pbkdf2F (password salt : Bytes) (c i : Nat) : Bytes :=
  let u1 := hmacSha512 password (salt ++ beBytes 4 i)
  pbkdf2Iter password (c - 1) u1 u1

/-- PBKDF2-HMAC-SHA512 (RFC 8018).  Models
`hashlib.pbkdf2_hmac("sha512", password, salt, c, dkLen)`. -/
def pbkdf2HmacSha512 (password salt : Bytes) (c dkLen : Nat) : Bytes :=
  (((List.range ((dkLen + 63) / 64)).map (fun j => pbkdf2F password salt c (j + 1))).flatten).take dkLen

/-- The standard base64 alphabet (RFC 4648). -/
def b64Alphabet : Bytes :=
  strBytes "ABCDEFGHIJKLMNOPQRSTUVWXYZabcdefghijklmnopqrstuvwxyz0123456789+/"

/-- Alphabet lookup for a 6-bit group. -/
def b64Char (n : Nat) : Nat := b64Alphabet.getD n 65

/-- Standard base64 encoding with `=` (61) padding.
Models `base64.b64encode`. -/
def b64encode : Bytes → Bytes
  | [] => []
  | [b1] => [b64Char (b1 / 4), b64Char (b1 % 4 * 16), 61, 61]
  | [b1, b2] => [b64Char (b1 / 4), b64Char (b1 % 4 * 16 + b2 / 16), b64Char (b2 % 16 * 4), 61]
  | b1 :: b2 :: b3 :: rest =>
    b64Char (b1 / 4) :: b64Char (b1 % 4 * 16 + b2 / 16) ::
    b64Char (b2 % 16 * 4 + b3 / 64) :: b64Char (b3 % 64) :: b64encode rest

/-- Model of auth.py `_hash_pbkdf2`: base64 of a 100000-iteration, 256-byte
PBKDF2-HMAC-SHA512 keyed by the serial as salt, truncated to 32 characters. -/
def hashPbkdf2 (password serial : Bytes) : Bytes :=
  (b64encode (pbkdf2HmacSha512 password (if serial.isEmpty then [] else serial) 100000 256)).take 32

/-- The bcrypt.js custom base64 alphabet (auth.py `_BASE64_CODE`). -/
def bcryptB64Code : Bytes :=
  strBytes "./ABCDEFGHIJKLMNOPQRSTUVWXYZabcdefghijklmnopqrstuvwxyz0123456789"

/-- Lookup into the bcrypt.js alphabet. -/
def bcryptB64Char (n : Nat) : Nat := bcryptB64Code.getD n 0

/-- The encoding loop of auth.py `_bcryptjs_base64_encode`: first argument is
the number of input bytes still to encode, second the remaining bytes.
Groups of 3 bytes yield 4 characters, with explicit handling for 1 or 2
trailing bytes, exactly as in the ported bcrypt.js loop. -/
def bcryptB64Go : Nat → Bytes → Bytes
  | 0, _ => []
  | 1, c1 :: _ =>
    [bcryptB64Char ((c1 >>> 2) &&& 63), bcryptB64Char ((c1 &&& 3) <<< 4 &&& 63)]
  | 2, c1 :: c2 :: _ =>
    [bcryptB64Char ((c1 >>> 2) &&& 63),
     bcryptB64Char (((c1 &&& 3) <<< 4 ||| (c2 >>> 4) &&& 15) &&& 63),
     bcryptB64Char ((c2 &&& 15) <<< 2 &&& 63)]
  | n + 3, c1 :: c2 :: c3 :: rest =>
    bcryptB64Char ((c1 >>> 2) &&& 63) ::
    bcryptB64Char (((c1 &&& 3) <<< 4 ||| (c2 >>> 4) &&& 15) &&& 63) ::
    bcryptB64Char (((c2 &&& 15) <<< 2 ||| (c3 >>> 6) &&& 3) &&& 63) ::
    bcryptB64Char (c3 &&& 63) :: bcryptB64Go n rest
  | _ + 1, _ => []

/-- Model of auth.py `_bcryptjs_base64_encode`, including its length
validation (`Illegal len` for a zero count or a count beyond the input). -/
def bcryptB64Encode (b : Bytes) (length : Nat) : Except String Bytes :=
  if length = 0 || b.length < length then .error "Illegal len"
  else .ok (bcryptB64Go length b)

/-- Python `str.isdigit` on the byte-level model: false on the empty string,
else true exactly when every character is an ASCII decimal digit. -/
def pyIsdigit (s : Bytes) : Bool := !s.isEmpty && s.all (fun c => 48 ≤ c && c ≤ 57)

/-- Model of auth.py `_bcryptjs_encode_base64_string`: digit-only validation,
zero-padding of the digit values to `length` bytes on the left, then the
bcrypt.js encoding. -/
def bcryptjsEncodeBase64String (s : Bytes) (length : Nat) : Except String Bytes :=
  if pyIsdigit s then
    let vals := s.map (fun ch => ch - 48)
    bcryptB64Encode (List.replicate (length - vals.length) 0 ++ vals) length
  else .error "Serial must be digits only"

/-- Decimal digits (most significant first) of a natural number, fuel-bounded
by the number itself. -/
def natAsciiAux : Nat → Nat → Bytes
  | 0, _ => []
  | fuel + 1, n => if n < 10 then [48 + n] else natAsciiAux fuel (n / 10) ++ [48 + n % 10]

/-- Decimal ASCII rendering of a natural number (no leading zeros). -/
def natAscii (n : Nat) : Bytes := natAsciiAux (n + 1) n

/-- Python `bytes.rstrip()`: drop trailing ASCII whitespace. -/
def rstripWs (s : Bytes) : Bytes :=
  (s.reverse.dropWhile (fun c => c = 32 || c = 9 || c = 10 || c = 13 || c = 11 || c = 12)).reverse

/-- Modelled from the spec: the external bcrypt library's `hashpw` (the
"standard adaptive hashing algorithm" of §4.1; not repository code).  Its
output is the salt followed by 31 characters drawn from the bcrypt alphabet;
the claims rely only on it being a fixed deterministic function of
`(password, salt)` with that shape, so the 31-character core is modeled as an
unspecified-but-fixed deterministic function. -/
def bcryptHashpw (password salt : Bytes) : Bytes :=
  salt ++ (hexAscii (sha256Bytes (password ++ salt))).take 31

/-- The steps of `_hash_bcrypt` whose ordering matters for the claims. -/
inductive BcryptStep where
  | sha256Password
  | serialEncoded
  | bcryptApplied
deriving DecidableEq

/-- Model of auth.py `_hash_bcrypt`, with a trace of the hashing steps in
source order: the password's SHA-256 preprocessing happens first, then the
serial validation/encoding, then the bcrypt hash; the salt prefix is stripped
and trailing whitespace removed from the result. -/
def hashBcrypt (password serial : Bytes) (iterations : Nat) :
    Except String Bytes × List BcryptStep :=
  let passwordSha256 := hexAscii (sha256Bytes password)
  match bcryptjsEncodeBase64String serial 16 with
  | .error e => (.error e, [.sha256Password])
  | .ok serialB64 =>
    let salt := strBytes "$2a$" ++ (if iterations < 10 then strBytes "0" else []) ++
      natAscii iterations ++ strBytes "$" ++ serialB64
    let pwHash := bcryptHashpw passwordSha256 salt
    (.ok (rstripWs (pwHash.drop salt.length)),
     [.sha256Password, .serialEncoded, .bcryptApplied])

/-- The two hash-algorithm selectors (models.py `AuthHashType`). -/
inductive AuthHashType where
  | pbkdf2
  | bcrypt
deriving DecidableEq

/-- Model of auth.py `hash_password`: dispatch to the selected algorithm. -/
def hashPassword (password serial : Bytes) : AuthHashType → Except String Bytes
  | .pbkdf2 => .ok (hashPbkdf2 password serial)
  | .bcrypt => (hashBcrypt password serial 8).1

/-- Model of auth.py `compute_auth_response`: two chained SHA-256 hex digests,
first over `token1 + secret`, then over `token3 + token2 + firstDigestHex`. -/
def computeAuthResponse (token1 token2 token3 hashedPassword : Bytes) : Bytes :=
  let hash1 := hexAscii (sha256Bytes (token1 ++ hashedPassword))
  hexAscii (sha256Bytes (token3 ++ token2 ++ hash1))

/-- Values carried by protocol frames and stored in the property map.
Python floats are modeled as exact rationals (no claim below depends on
binary-float rounding); structured-object values do not occur in any claim
and are not modeled. -/
inductive PyVal where
  | pnone
  | pbool (b : Bool)
  | pint (n : Int)
  | pfloat (q : Rat)
  | pstr (s : String)
  | plist (elems : List PyVal)

/-- Device identity populated from the greeting frame
(models.py `DeviceInfo`). -/
structure DeviceInfo where
  serial : String
  name : String
  hostname : String
  friendly_name : String
  manufacturer : String
  device_type : String
  protocol : Int
  secured : Int
  version : String
  firmware : String
deriving DecidableEq

/-- The `DeviceInfo` dataclass defaults: every field empty/zero. -/
def emptyDevice : DeviceInfo := ⟨"", "", "", "", "", "", 0, 0, "", ""⟩

/-- The named fast-access property caches of client.py `Wattpilot` (the
`self._voltage1` ... `self._cak` attribute group), gathered in one record.
Each holds the raw value last assigned by `_update_property` (`None`
initially). -/
structure NamedCaches where
  voltage1 : Option PyVal
  voltage2 : Option PyVal
  voltage3 : Option PyVal
  voltageN : Option PyVal
  amps1 : Option PyVal
  amps2 : Option PyVal
  amps3 : Option PyVal
  power1 : Option PyVal
  power2 : Option PyVal
  power3 : Option PyVal
  powerN : Option PyVal
  power : Option PyVal
  amp : Option PyVal
  version : Option PyVal
  firmware : Option PyVal
  wifiSsid : Option PyVal
  mode : Option PyVal
  carConnected : Option PyVal
  allowCharging : Option PyVal
  accessState : Option PyVal
  cableType : Option PyVal
  cableLock : Option PyVal
  frequency : Option PyVal
  phases : Option PyVal
  energyCounterSinceStart : Option PyVal
  energyCounterTotal : Option PyVal
  errorState : Option PyVal
  cae : Option PyVal
  cak : Option PyVal

/-- All caches empty (the `__init__` defaults). -/
def emptyCaches : NamedCaches :=
  ⟨none, none, none, none, none, none, none, none, none, none, none, none, none, none,
   none, none, none, none, none, none, none, none, none, none, none, none, none, none, none⟩

/-- The client state: the fields of client.py `Wattpilot` that the claims
touch.  The two `asyncio.Event` flags are booleans (set/clear), the WebSocket
and the message-loop task are presence booleans, and property callbacks are
opaque identifiers (invocations are reported as emitted events). -/
structure ClientState where
  device : DeviceInfo
  wsOpen : Bool
  loopRunning : Bool
  requestId : Nat
  connected : Bool
  allProps : List (String × PyVal)
  allPropsInitialized : Bool
  connectedEvent : Bool
  initializedEvent : Bool
  authError : Option String
  schema : List (String × String)
  propertyCallbacks : List Nat
  caches : NamedCaches

/-- A fresh client (client.py `__init__` with no serial): everything cleared,
with the given schema and registered property callbacks. -/
def initialClient (schema : List (String × String)) (callbacks : List Nat) : ClientState :=
  ⟨emptyDevice, false, false, 0, false, [], false, false, false, none, schema, callbacks,
   emptyCaches⟩

/-- Python dict assignment on the assoc-list model of `_all_props`: replace in
place if the key exists, append otherwise. -/
def assocSet : List (String × PyVal) → String → PyVal → List (String × PyVal)
  | [], k, v => [(k, v)]
  | (k', v') :: t, k, v => if k' = k then (k, v) :: t else (k', v') :: assocSet t k v

/-- Python dict lookup on the assoc-list model. -/
def assocGet : List (String × PyVal) → String → Option PyVal
  | [], _ => none
  | (k', v') :: t, k => if k' = k then some v' else assocGet t k

/-- Python `value[i] * 0.001` for an element of the `nrg` array (scaling at
exact-rational precision); `none` models the `TypeError` a non-numeric element
would raise. -/
def pyMulMilli : PyVal → Option PyVal
  | .pint n => some (.pfloat ((n : Rat) * (1 / 1000)))
  | .pfloat q => some (.pfloat (q * (1 / 1000)))
  | .pbool b => some (.pfloat ((if b then 1 else 0 : Rat) * (1 / 1000)))
  | _ => none

/-- The property keys that client.py `_update_property` special-cases in its
`match name:` statement (one constructor per literal pattern). -/
inductive CacheKey where
  | acs | cbl | fhz | pha | wh | err | ust | eto | cae | cak | lmo | car | alw
  | nrg | amp | version | ast | fwv | wss
deriving DecidableEq

/-- Which special case (if any) a property name falls into: the discriminant
of the source's `match name:` statement. -/
def keyOf (name : String) : Option CacheKey :=
  if name = "acs" then some .acs
  else if name = "cbl" then some .cbl
  else if name = "fhz" then some .fhz
  else if name = "pha" then some .pha
  else if name = "wh" then some .wh
  else if name = "err" then some .err
  else if name = "ust" then some .ust
  else if name = "eto" then some .eto
  else if name = "cae" then some .cae
  else if name = "cak" then some .cak
  else if name = "lmo" then some .lmo
  else if name = "car" then some .car
  else if name = "alw" then some .alw
  else if name = "nrg" then some .nrg
  else if name = "amp" then some .amp
  else if name = "version" then some .version
  else if name = "ast" then some .ast
  else if name = "fwv" then some .fwv
  else if name = "wss" then some .wss
  else none

/-- The named fast-access cache update of client.py `_update_property` (the
body of each `match name:` case).  `none` models the exception a malformed
`nrg` value would raise (non-list, fewer than 12 elements, or non-numeric
power entries); names with no special case leave the caches unchanged. -/
def updateNamed (c : NamedCaches) (name : String) (value : PyVal) : Option NamedCaches :=
  match keyOf name with
  | none => some c
  | some .acs => some { c with accessState := some value }
  | some .cbl => some { c with cableType := some value }
  | some .fhz => some { c with frequency := some value }
  | some .pha => some { c with phases := some value }
  | some .wh => some { c with energyCounterSinceStart := some value }
  | some .err => some { c with errorState := some value }
  | some .ust => some { c with cableLock := some value }
  | some .eto => some { c with energyCounterTotal := some value }
  | some .cae => some { c with cae := some value }
  | some .cak => some { c with cak := some value }
  | some .lmo => some { c with mode := some value }
  | some .car => some { c with carConnected := some value }
  | some .alw => some { c with allowCharging := some value }
  | some .nrg =>
    match value with
    | .plist l =>
      if 12 ≤ l.length then
        match pyMulMilli (l.getD 7 .pnone), pyMulMilli (l.getD 8 .pnone),
              pyMulMilli (l.getD 9 .pnone), pyMulMilli (l.getD 10 .pnone),
              pyMulMilli (l.getD 11 .pnone) with
        | some p1, some p2, some p3, some pn, some pw =>
          some { c with
            voltage1 := some (l.getD 0 .pnone), voltage2 := some (l.getD 1 .pnone),
            voltage3 := some (l.getD 2 .pnone), voltageN := some (l.getD 3 .pnone),
            amps1 := some (l.getD 4 .pnone), amps2 := some (l.getD 5 .pnone),
            amps3 := some (l.getD 6 .pnone),
            power1 := some p1, power2 := some p2, power3 := some p3,
            powerN := some pn, power := some pw }
        | _, _, _, _, _ => none
      else none
    | _ => none
  | some .amp => some { c with amp := some value }
  | some .version => some { c with version := some value }
  | some .ast => some { c with accessState := some value }
  | some .fwv => some { c with firmware := some value }
  | some .wss => some { c with wifiSsid := some value }

/-- One invocation of a registered property-change callback, as an emitted
event `(callback id, key, value)`. -/
abbrev PropEvent := Nat × String × PyVal

/-- Model of client.py `_update_property`: store into `_all_props`, refresh
the named cache, then fire every registered property callback once with
`(name, value)`.  `none` models the exception a malformed `nrg` value raises;
in the source the store write precedes that exception, but no claim observes
state on the exception path, so the result is simply `none` there. -/
def updateProperty (s : ClientState) (name : String) (value : PyVal) :
    Option (ClientState × List PropEvent) :=
  match updateNamed s.caches name value with
  | none => none
  | some c =>
    some ({ s with allProps := assocSet s.allProps name value, caches := c },
      s.propertyCallbacks.map (fun cb => (cb, name, value)))

/-- Apply a status payload key by key, in frame order, accumulating the
callback events. -/
def applyProps : ClientState → List (String × PyVal) → Option (ClientState × List PropEvent)
  | s, [] => some (s, [])
  | s, (k, v) :: t =>
    match updateProperty s k v with
    | none => none
    | some (s', evs) =>
      match applyProps s' t with
      | none => none
      | some (s'', evs') => some (s'', evs ++ evs')

/-- Model of client.py `_on_full_status`: apply the status payload, then —
if a partial indicator is present and initialization is incomplete — complete
initialization only when the indicator is false; in every other case mark
initialization complete and set the initialized event. -/
def onFullStatus (s : ClientState) (status : List (String × PyVal)) (partFlag : Option Bool) :
    Option (ClientState × List PropEvent) :=
  match applyProps s status with
  | none => none
  | some (s1, evs) =>
    let s2 :=
      match partFlag, s1.allPropsInitialized with
      | some p, false =>
        if !p then { s1 with allPropsInitialized := true, initializedEvent := true } else s1
      | some _, true => { s1 with allPropsInitialized := true, initializedEvent := true }
      | none, _ => { s1 with allPropsInitialized := true, initializedEvent := true }
    some (s2, evs)

/-- Model of client.py `_on_delta_status`: complete initialization first if it
has not happened yet, then apply the payload. -/
def onDeltaStatus (s : ClientState) (status : List (String × PyVal)) :
    Option (ClientState × List PropEvent) :=
  let s1 :=
    if !s.allPropsInitialized then
      { s with allPropsInitialized := true, initializedEvent := true }
    else s
  applyProps s1 status

/-- A greeting frame (`hello`), with optional attributes modeled as `Option`
(`hasattr` / `getattr` with default in the source). -/
structure HelloMsg where
  serial : String
  hostname : Option String
  friendly_name : Option String
  version : Option String
  manufacturer : Option String
  devicetype : Option String
  protocol : Option Int
  secured : Option Int

/-- Model of client.py `_on_hello`: serial always overwritten; hostname/name,
friendly name, version and secured only when present; manufacturer,
device type and protocol always (with empty/zero defaults when absent). -/
def onHello (s : ClientState) (g : HelloMsg) : ClientState :=
  let d1 := { s.device with serial := g.serial }
  let d2 :=
    match g.hostname with
    | some hn => { d1 with name := hn, hostname := hn }
    | none => d1
  let d3 :=
    match g.friendly_name with
    | some fn => { d2 with friendly_name := fn }
    | none => d2
  let d4 :=
    match g.version with
    | some ver => { d3 with version := ver }
    | none => d3
  let d5 := { d4 with
    manufacturer := g.manufacturer.getD ""
    device_type := g.devicetype.getD ""
    protocol := g.protocol.getD 0 }
  let d6 :=
    match g.secured with
    | some sec => { d5 with secured := sec }
    | none => d5
  { s with device := d6 }

/-- Model of client.py `_on_auth_success`. -/
def onAuthSuccess (s : ClientState) : ClientState :=
  { s with connected := true, connectedEvent := true }

/-- The two shared-state operations of the auth-failure handler, as traceable
actions. -/
inductive AuthAction where
  | writeErrorSlot (m : String)
  | signalConnectedEvent
deriving DecidableEq

/-- Writing the captured-error slot (`self._auth_error = ...`). -/
def writeErrorSlotStep (s : ClientState) (m : String) : ClientState × AuthAction :=
  ({ s with authError := some m }, .writeErrorSlot m)

/-- Signaling the connected event (`self._connected_event.set()`). -/
def signalConnectedStep (s : ClientState) : ClientState × AuthAction :=
  ({ s with connectedEvent := true }, .signalConnectedEvent)

/-- Model of client.py `_on_auth_error`: capture the server's message (with
the source's default when absent) into the error slot, then signal the
connected event; the returned trace lists the two actions in source order. -/
def onAuthError (s : ClientState) (messageField : Option String) :
    ClientState × List AuthAction :=
  let m := messageField.getD "Unknown auth error"
  let p1 := writeErrorSlotStep s m
  let p2 := signalConnectedStep p1.1
  (p2.1, [p1.2, p2.2])

/-- Model of client.py `disconnect`: cancel the message loop, close the
WebSocket, clear both event flags, mark not connected.  The device identity
is untouched. -/
def disconnectClient (s : ClientState) : ClientState :=
  { s with loopRunning := false, wsOpen := false, connected := false,
           connectedEvent := false, initializedEvent := false }

/-- The start of client.py `connect` (past the already-connected fast path):
clear both events and the error slot, open the transport, start the message
loop.  The device identity is untouched. -/
def connectStart (s : ClientState) : ClientState :=
  { s with connectedEvent := false, initializedEvent := false, authError := none,
           wsOpen := true, loopRunning := true }

/-- The error taxonomy of exceptions.py that the modeled operations raise. -/
inductive WpErr where
  | connectionErr (m : String)
  | authenticationErr (m : String)
  | propertyErr (m : String)
deriving DecidableEq

/-- The step of client.py `connect` right after the connected-event wait:
if an auth error was captured, tear down the transport and raise it. -/
def connectResume (s : ClientState) : Option WpErr × ClientState :=
  match s.authError with
  | some e => (some (.authenticationErr e), disconnectClient s)
  | none => (none, s)

/-- ASCII lowercase of a string (Python `str.lower` on the repository's ASCII
property values). -/
def pyLower (s : String) : String :=
  String.mk (s.data.map (fun c => if 'A' ≤ c && c ≤ 'Z' then Char.ofNat (c.toNat + 32) else c))

/-- Python whitespace, as stripped by `int()` / `float()`. -/
def isPyWs (c : Char) : Bool :=
  c = ' ' || c = Char.ofNat 9 || c = Char.ofNat 10 || c = Char.ofNat 13 ||
  c = Char.ofNat 11 || c = Char.ofNat 12

/-- Strip leading and trailing whitespace. -/
def stripWs (cs : List Char) : List Char :=
  ((cs.dropWhile isPyWs).reverse.dropWhile isPyWs).reverse

/-- ASCII decimal digit test. -/
def isDigitCh (c : Char) : Bool := '0' ≤ c && c ≤ '9'

/-- Value of a digit run. -/
def digitsNat (cs : List Char) : Nat := cs.foldl (fun a c => a * 10 + (c.toNat - 48)) 0

/-- Model of Python `int(str)`: optional surrounding whitespace, an optional
sign, then one or more decimal digits (digit-grouping underscores are not
modeled). -/
def pyParseInt (s : String) : Option Int :=
  let cs := stripWs s.data
  let core :=
    match cs with
    | '-' :: rest => some (true, rest)
    | '+' :: rest => some (false, rest)
    | rest => some (false, rest)
  match core with
  | some (neg, ds) =>
    if ds ≠ [] && ds.all isDigitCh then
      some (if neg then -(digitsNat ds : Int) else (digitsNat ds : Int))
    else none
  | none => none

/-- Split a character list at the first `e`/`E`. -/
def splitExpMark : List Char → List Char × Option (List Char)
  | [] => ([], none)
  | c :: rest =>
    if c = 'e' || c = 'E' then ([], some rest)
    else
      let r := splitExpMark rest
      (c :: r.1, r.2)

/-- Parse an optional sign followed by at least one digit. -/
def parseSignedDigits (cs : List Char) : Option Int :=
  match cs with
  | '-' :: ds => if ds ≠ [] && ds.all isDigitCh then some (-(digitsNat ds : Int)) else none
  | '+' :: ds => if ds ≠ [] && ds.all isDigitCh then some (digitsNat ds : Int) else none
  | ds => if ds ≠ [] && ds.all isDigitCh then some (digitsNat ds : Int) else none

/-- Parse a decimal mantissa `digits [. digits]` (either side may be empty,
not both) into an exact rational. -/
def parseMantissa (cs : List Char) : Option Rat :=
  let ip := cs.takeWhile isDigitCh
  match cs.drop ip.length with
  | [] => if ip ≠ [] then some (digitsNat ip : Rat) else none
  | '.' :: fp =>
    if fp.all isDigitCh && (ip ≠ [] || fp ≠ []) then
      some ((digitsNat ip : Rat) + (digitsNat fp : Rat) / (10 : Rat) ^ fp.length)
    else none
  | _ => none

/-- Model of Python `float(str)` restricted to finite decimal literals:
optional whitespace and sign, a decimal mantissa, an optional exponent
(`inf`/`nan` and underscores are not modeled; the value is exact rational
rather than binary64, which no claim below observes). -/
def pyParseFloat (s : String) : Option Rat :=
  let cs := stripWs s.data
  let signed :=
    match cs with
    | '-' :: rest => (true, rest)
    | '+' :: rest => (false, rest)
    | rest => (false, rest)
  let parts := splitExpMark signed.2
  match parseMantissa parts.1 with
  | none => none
  | some m =>
    let withExp :=
      match parts.2 with
      | none => some m
      | some ecs =>
        match parseSignedDigits ecs with
        | none => none
        | some e => some (m * (10 : Rat) ^ e)
    match withExp with
    | none => none
    | some q => some (if signed.1 then -q else q)

/-- Decimal rendering of an integer (Python `repr`). -/
def intRepr (n : Int) : String :=
  if n < 0 then "-" ++ Nat.repr n.natAbs else Nat.repr n.natAbs

/-- Python `type(value).__name__` for the modeled values. -/
def pyTypeName : PyVal → String
  | .pnone => "NoneType"
  | .pbool _ => "bool"
  | .pint _ => "int"
  | .pfloat _ => "float"
  | .pstr _ => "str"
  | .plist _ => "list"

/-- Python `str(value)`.  Exact for the bool/int/str values the claims use;
float and list renderings are placeholders (no claim observes them). -/
def pyStrOf : PyVal → String
  | .pnone => "None"
  | .pbool true => "True"
  | .pbool false => "False"
  | .pint n => intRepr n
  | .pfloat q => intRepr q.num ++ "/" ++ Nat.repr q.den
  | .pstr s => s
  | .plist _ => "[...]"

/-- Python truthiness of a number (`bool(value)` for int/float). -/
def pyNumTruthy : PyVal → Bool
  | .pint n => n ≠ 0
  | .pfloat q => q ≠ 0
  | _ => false

/-- Truncation toward zero (Python `int(float)`): `Int.tdiv` rounds the
quotient toward zero, matching CPython, where `/` on `Int` would floor. -/
def pyTrunc (q : Rat) : Int := q.num.tdiv (q.den : Int)

/-- Model of client.py `_coerce_to_json_type`: conversion of a value to the
schema's declared JSON type, raising `PropertyError` (as an `Except.error`)
exactly where the source does. -/
def coerceToJsonType (value : PyVal) (jsonType name : String) : Except String PyVal :=
  if jsonType = "boolean" then
    match value with
    | .pbool b => .ok (.pbool b)
    | .pstr s =>
      let lower := pyLower s
      if lower = "true" || lower = "1" || lower = "yes" then .ok (.pbool true)
      else if lower = "false" || lower = "0" || lower = "no" then .ok (.pbool false)
      else .error ("Cannot convert '" ++ s ++ "' to bool for property '" ++ name ++ "'")
    | .pint n => .ok (.pbool (pyNumTruthy (.pint n)))
    | .pfloat q => .ok (.pbool (pyNumTruthy (.pfloat q)))
    | v => .error ("Cannot convert " ++ pyTypeName v ++ " to bool for property '" ++ name ++ "'")
  else if jsonType = "integer" then
    match value with
    | .pbool b => .ok (.pint (if b then 1 else 0))
    | .pint n => .ok (.pint n)
    | .pfloat q => .ok (.pint (pyTrunc q))
    | .pstr s =>
      match pyParseInt s with
      | some n => .ok (.pint n)
      | none =>
        match pyParseFloat s with
        | some q => .ok (.pint (pyTrunc q))
        | none => .error ("Cannot convert '" ++ s ++ "' to int for property '" ++ name ++ "'")
    | v => .error ("Cannot convert " ++ pyTypeName v ++ " to int for property '" ++ name ++ "'")
  else if jsonType = "float" then
    match value with
    | .pbool b => .ok (.pfloat (if b then 1 else 0))
    | .pint n => .ok (.pfloat (n : Rat))
    | .pfloat q => .ok (.pfloat q)
    | .pstr s =>
      match pyParseFloat s with
      | some q => .ok (.pfloat q)
      | none => .error ("Cannot convert '" ++ s ++ "' to float for property '" ++ name ++ "'")
    | v => .error ("Cannot convert " ++ pyTypeName v ++ " to float for property '" ++ name ++ "'")
  else if jsonType = "string" then .ok (.pstr (pyStrOf value))
  else .ok value

/-- Schema lookup (`api_def.properties.get(name)` / `jsonType`). -/
def schemaLookup : List (String × String) → String → Option String
  | [], _ => none
  | (k, t) :: rest, name => if k = name then some t else schemaLookup rest name

/-- Model of client.py `_coerce_value`: no schema entry or an empty declared
type passes the value through; otherwise convert to the declared type. -/
def coerceValue (s : ClientState) (name : String) (value : PyVal) : Except String PyVal :=
  match schemaLookup s.schema name with
  | none => .ok value
  | some jsonType =>
    if jsonType = "" then .ok value else coerceToJsonType value jsonType name

/-- An outbound `setValue` frame. -/
structure SetValueMsg where
  requestId : Nat
  key : String
  value : PyVal

/-- What `_send` puts on the wire: the frame, possibly wrapped in the signed
envelope. -/
inductive OutFrame where
  | plain (m : SetValueMsg)
  | secured (m : SetValueMsg)

/-- Model of client.py `_send`: raise `ConnectionError` when no WebSocket is
open; otherwise transmit the (possibly signed) frame. -/
def sendFrame (s : ClientState) (m : SetValueMsg) (secure : Bool) :
    Option WpErr × ClientState × List OutFrame :=
  if s.wsOpen then (none, s, [if secure then .secured m else .plain m])
  else (some (.connectionErr "Not connected"), s, [])

/-- Model of client.py `set_property`: coerce first (an error here leaves the
state untouched and sends nothing), then assign a fresh request id and send a
set-value frame, signed when the greeting's secured flag is positive. -/
def setProperty (s : ClientState) (name : String) (value : PyVal) :
    Option WpErr × ClientState × List OutFrame :=
  match coerceValue s name value with
  | .error e => (some (.propertyErr e), s, [])
  | .ok v' =>
    let s1 := { s with requestId := s.requestId + 1 }
    sendFrame s1 ⟨s1.requestId, name, v'⟩ (decide (0 < s.device.secured))

/-- Model of client.py `set_power`. -/
def setPower (s : ClientState) (amperage : Int) : Option WpErr × ClientState × List OutFrame :=
  setProperty s "amp" (.pint amperage)

/-- Model of client.py `set_mode` (the enum argument is its integer value). -/
def setMode (s : ClientState) (mode : Int) : Option WpErr × ClientState × List OutFrame :=
  setProperty s "lmo" (.pint mode)

/-- Python `int(value)` on a stored property value (`int(tds)`); `none`
models the exception a non-numeric value would raise. -/
def pyIntOf : PyVal → Option Int
  | .pint n => some n
  | .pbool b => some (if b then 1 else 0)
  | .pfloat q => some (pyTrunc q)
  | .pstr s => pyParseInt s
  | _ => none

/-- Model of client.py `set_next_trip`: seconds since midnight from the
wall-clock time, plus one hour when the stored daylight-saving indicator
coerces to 1 or 2; the outer `none` models the exception `int(tds)` would
raise on a non-numeric stored value. -/
def setNextTrip (s : ClientState) (hh mm ss : Nat) :
    Option (Option WpErr × ClientState × List OutFrame) :=
  let timestamp : Int := hh * 3600 + mm * 60 + ss
  match assocGet s.allProps "tds" with
  | none => some (setProperty s "ftt" (.pint timestamp))
  | some tv =>
    match pyIntOf tv with
    | none => none
    | some n =>
      some (setProperty s "ftt" (.pint (if n = 1 || n = 2 then timestamp + 3600 else timestamp)))

mutual
/-- JSON values for the signing envelope's inner message (`dict[str, Any]`):
null, booleans, integers, strings, arrays, objects.  Strings are byte lists
(code points below 256 in the byte-level model); non-integer numbers do not
occur in the signing claims and are not modeled. -/
inductive Json where
  | jnull
  | jbool (b : Bool)
  | jint (n : Int)
  | jstr (s : Bytes)
  | jarr (elems : JsonArr)
  | jobj (fields : JsonObj)
inductive JsonArr where
  | anil
  | acons (hd : Json) (tl : JsonArr)
inductive JsonObj where
  | onil
  | ocons (key : Bytes) (val : Json) (tl : JsonObj)
end

/-- Four lowercase hex digits (ASCII) of a code point below 65536. -/
def hex4 (c : Nat) : Bytes :=
  [hexChar (c / 4096 % 16), hexChar (c / 256 % 16), hexChar (c / 16 % 16), hexChar (c % 16)]

/-- Python `json.dumps` string escaping for one character: backslash escapes
for quote, backslash and the five short control escapes; `\u00xx`-style
escapes for other characters outside printable ASCII. -/
def escapeChar (c : Nat) : Bytes :=
  if c = 34 then [92, 34]
  else if c = 92 then [92, 92]
  else if c = 8 then [92, 98]
  else if c = 9 then [92, 116]
  else if c = 10 then [92, 110]
  else if c = 12 then [92, 102]
  else if c = 13 then [92, 114]
  else if c < 32 || 126 < c then 92 :: 117 :: hex4 c
  else [c]

/-- Escape a whole string body. -/
def escapeStr : Bytes → Bytes
  | [] => []
  | c :: cs => escapeChar c ++ escapeStr cs

/-- Decimal ASCII of an integer (`json.dumps` of a Python int). -/
def intAscii (n : Int) : Bytes :=
  if n < 0 then 45 :: natAscii n.natAbs else natAscii n.natAbs

mutual
/-- Model of Python `json.dumps` with its default separators: `", "` between
items and `": "` after keys; strings quoted and escaped as above. -/
def jdump : Json → Bytes
  | .jnull => strBytes "null"
  | .jbool true => strBytes "true"
  | .jbool false => strBytes "false"
  | .jint n => intAscii n
  | .jstr s => 34 :: (escapeStr s ++ [34])
  | .jarr a => 91 :: (jdumpArr a ++ [93])
  | .jobj o => 123 :: (jdumpObj o ++ [125])
def jdumpArr : JsonArr → Bytes
  | .anil => []
  | .acons v .anil => jdump v
  | .acons v (.acons w tl) => jdump v ++ (44 :: 32 :: jdumpArr (.acons w tl))
def jdumpObj : JsonObj → Bytes
  | .onil => []
  | .ocons k v .onil => (34 :: (escapeStr k ++ [34])) ++ (58 :: 32 :: jdump v)
  | .ocons k v (.ocons k' v' tl) =>
    ((34 :: (escapeStr k ++ [34])) ++ (58 :: 32 :: jdump v)) ++
    (44 :: 32 :: jdumpObj (.ocons k' v' tl))
end

/-- Value of one hex digit (upper or lower case). -/
def hexDigitVal (c : Nat) : Option Nat :=
  if 48 ≤ c && c ≤ 57 then some (c - 48)
  else if 97 ≤ c && c ≤ 102 then some (c - 87)
  else if 65 ≤ c && c ≤ 70 then some (c - 55)
  else none

/-- Single-character unescape for the short backslash escapes. -/
def unescape1 (e : Nat) : Option Nat :=
  if e = 34 then some 34
  else if e = 92 then some 92
  else if e = 47 then some 47
  else if e = 98 then some 8
  else if e = 116 then some 9
  else if e = 110 then some 10
  else if e = 102 then some 12
  else if e = 114 then some 13
  else none

/-- Parse a JSON string body (after the opening quote) up to and including the
closing quote, undoing the printer's escapes. -/
def parseStrBody : Bytes → Option (Bytes × Bytes)
  | [] => none
  | c :: rest =>
    if c = 34 then some ([], rest)
    else if c = 92 then
      match rest with
      | [] => none
      | e :: rest' =>
        if e = 117 then
          match rest' with
          | h1 :: h2 :: h3 :: h4 :: rest'' =>
            match hexDigitVal h1, hexDigitVal h2, hexDigitVal h3, hexDigitVal h4,
                  parseStrBody rest'' with
            | some d1, some d2, some d3, some d4, some (s, r) =>
              some ((((d1 * 16 + d2) * 16 + d3) * 16 + d4) :: s, r)
            | _, _, _, _, _ => none
          | _ => none
        else
          match unescape1 e, parseStrBody rest' with
          | some uc, some (s, r) => some (uc :: s, r)
          | _, _ => none
    else
      match parseStrBody rest with
      | some (s, r) => some (c :: s, r)
      | none => none

/-- Digit test on byte values. -/
def isDigitByte (c : Nat) : Bool := 48 ≤ c && c ≤ 57

/-- Split off a leading digit run. -/
def takeDigits (bs : Bytes) : Bytes × Bytes :=
  (bs.takeWhile isDigitByte, bs.dropWhile isDigitByte)

/-- Decimal value of an ASCII digit run. -/
def digitsVal (ds : Bytes) : Nat := ds.foldl (fun a c => a * 10 + (c - 48)) 0

/-- Head-byte test. -/
def headIs (b : Nat) : Bytes → Bool
  | [] => false
  | c :: _ => c = b

/-- True when the input does not start with a decimal digit (the printer never
leaves a digit right after a serialized number, which makes number parsing
unambiguous). -/
def noDigitHead : Bytes → Bool
  | [] => true
  | c :: _ => !isDigitByte c

/-- Match an exact byte prefix, returning the remainder. -/
def expectBytes : Bytes → Bytes → Option Bytes
  | [], bs => some bs
  | p :: ps, c :: cs => if c = p then expectBytes ps cs else none
  | _ :: _, [] => none

mutual
/-- Recursive-descent JSON parser over the printer's grammar, fuel-bounded by
nesting depth; returns the value and the unconsumed remainder. -/
def parseJ : Nat → Bytes → Option (Json × Bytes)
  | 0, _ => none
  | _ + 1, [] => none
  | fuel + 1, c :: rest =>
    if c = 110 then
      match expectBytes [117, 108, 108] rest with
      | some r => some (.jnull, r)
      | none => none
    else if c = 116 then
      match expectBytes [114, 117, 101] rest with
      | some r => some (.jbool true, r)
      | none => none
    else if c = 102 then
      match expectBytes [97, 108, 115, 101] rest with
      | some r => some (.jbool false, r)
      | none => none
    else if c = 34 then
      match parseStrBody rest with
      | some (s, r) => some (.jstr s, r)
      | none => none
    else if c = 91 then
      if headIs 93 rest then some (.jarr .anil, rest.tail)
      else
        match parseArrElems fuel rest with
        | some (a, r) => some (.jarr a, r)
        | none => none
    else if c = 123 then
      if headIs 125 rest then some (.jobj .onil, rest.tail)
      else
        match parseObjFields fuel rest with
        | some (o, r) => some (.jobj o, r)
        | none => none
    else if c = 45 then
      let td := takeDigits rest
      if td.1.isEmpty then none else some (.jint (-(digitsVal td.1 : Int)), td.2)
    else if isDigitByte c then
      let td := takeDigits (c :: rest)
      some (.jint (digitsVal td.1 : Int), td.2)
    else none
def parseArrElems : Nat → Bytes → Option (JsonArr × Bytes)
  | 0, _ => none
  | fuel + 1, bs =>
    match parseJ fuel bs with
    | none => none
    | some (v, r) =>
      match r with
      | 93 :: r' => some (.acons v .anil, r')
      | 44 :: 32 :: r' =>
        match parseArrElems fuel r' with
        | some (a, r'') => some (.acons v a, r'')
        | none => none
      | _ => none
def parseObjFields : Nat → Bytes → Option (JsonObj × Bytes)
  | 0, _ => none
  | fuel + 1, bs =>
    match bs with
    | 34 :: kb =>
      match parseStrBody kb with
      | none => none
      | some (k, r) =>
        match r with
        | 58 :: 32 :: r' =>
          match parseJ fuel r' with
          | none => none
          | some (v, r'') =>
            match r'' with
            | 125 :: r3 => some (.ocons k v .onil, r3)
            | 44 :: 32 :: r3 =>
              match parseObjFields fuel r3 with
              | some (o, r4) => some (.ocons k v o, r4)
              | none => none
            | _ => none
        | _ => none
    | _ => none
end

mutual
/-- Nesting-depth measure supplying sufficient parser fuel. -/
def jdepth : Json → Nat
  | .jnull => 1
  | .jbool _ => 1
  | .jint _ => 1
  | .jstr _ => 1
  | .jarr a => 1 + adepth a
  | .jobj o => 1 + odepth o
def adepth : JsonArr → Nat
  | .anil => 0
  | .acons v tl => 1 + max (jdepth v) (adepth tl)
def odepth : JsonObj → Nat
  | .onil => 0
  | .ocons _ v tl => 1 + max (jdepth v) (odepth tl)
end

/-- Object-field lookup (`message["requestId"]`). -/
def jGet : JsonObj → Bytes → Option Json
  | .onil, _ => none
  | .ocons k v tl, key => if k = key then some v else jGet tl key

/-- Python `f"{x}"` for the request id inside the envelope (string values
interpolate bare; integers in decimal; remaining forms best-effort and unused
by the claims). -/
def pyFStr : Json → Bytes
  | .jnull => strBytes "None"
  | .jbool true => strBytes "True"
  | .jbool false => strBytes "False"
  | .jint n => intAscii n
  | .jstr s => s
  | .jarr a => jdump (.jarr a)
  | .jobj o => jdump (.jobj o)

/-- The signing envelope returned by auth.py `sign_secured_message`. -/
structure SecuredEnvelope where
  typeTag : Bytes
  data : Bytes
  requestId : Bytes
  hmac : Bytes

/-- Model of auth.py `sign_secured_message`: read the message's `requestId`
(`none` models the `KeyError` on a message without one), serialize the
message, HMAC-SHA256 it under the secret, and assemble the envelope with the
`securedMsg` type tag and the `sm`-suffixed request id. -/
def signSecuredMessage (message : JsonObj) (hashedPassword : Bytes) :
    Option SecuredEnvelope :=
  match jGet message (strBytes "requestId") with
  | none => none
  | some rid =>
    let payload := jdump (.jobj message)
    some { typeTag := strBytes "securedMsg"
           data := payload
           requestId := pyFStr rid ++ strBytes "sm"
           hmac := hexAscii (hmacSha256 hashedPassword payload) }

/-- Lowercase-hex-digit test (the alphabet of `.hexdigest()`). -/
def isHexLower (c : Nat) : Bool := (48 ≤ c && c ≤ 57) || (97 ≤ c && c ≤ 102)

/-- Whether a raised error (if any) is a `PropertyError`. -/
def isPropertyErr : Option WpErr → Bool
  | some (.propertyErr _) => true
  | _ => false

mutual
/-- Well-formedness for the byte-level JSON model: every string character is a
code point below 65536 (what a single `\u` escape can carry). -/
def jwf : Json → Bool
  | .jnull => true
  | .jbool _ => true
  | .jint _ => true
  | .jstr s => s.all (fun c => c < 65536)
  | .jarr a => jwfArr a
  | .jobj o => jwfObj o
def jwfArr : JsonArr → Bool
  | .anil => true
  | .acons v tl => jwf v && jwfArr tl
def jwfObj : JsonObj → Bool
  | .onil => true
  | .ocons k v tl => k.all (fun c => c < 65536) && jwf v && jwfObj tl
end

/-- A small schema fixture: the declared JSON types used by the witnesses. -/
def demoSchema : List (String × String) :=
  [("amp", "integer"), ("lmo", "integer"), ("fup", "boolean"), ("fst", "float"), ("ftt", "integer")]

/-- A freshly constructed client over the fixture schema with two registered
property callbacks. -/
def demoClient : ClientState := initialClient demoSchema [0, 1]

/-- The fixture client with an open WebSocket. -/
def demoClientOnline : ClientState := { demoClient with wsOpen := true }

/-- A first-session greeting carrying every optional field (secured = 1). -/
def hello1 : HelloMsg :=
  ⟨"SER1", some "wp1", some "Garage", some "40.5", some "fronius", some "wattpilot", some 2, some 1⟩

/-- A second-session greeting carrying only the serial. -/
def hello2 : HelloMsg := ⟨"SER2", none, none, none, none, none, none, none⟩

/-- A representative outbound command message for the signing witnesses. -/
def demoMessage : JsonObj :=
  .ocons (strBytes "type") (.jstr (strBytes "setValue"))
    (.ocons (strBytes "requestId") (.jint 7)
      (.ocons (strBytes "key") (.jstr (strBytes "amp"))
        (.ocons (strBytes "value") (.jint 16) .onil)))

/-! ### Supporting lemmas -/

lemma if_no {c : Prop} [Decidable c] {a : Sort u} {t e : a} (hnc : ¬c) :
    (if c then t else e) = e := if_neg hnc

lemma updateProperty_some_fields {s s' : ClientState} {k : String} {v : PyVal}
    {evs : List PropEvent} (h : updateProperty s k v = some (s', evs)) :
    s'.device = s.device ∧ s'.wsOpen = s.wsOpen ∧ s'.loopRunning = s.loopRunning ∧
    s'.requestId = s.requestId ∧ s'.connected = s.connected ∧
    s'.allPropsInitialized = s.allPropsInitialized ∧ s'.connectedEvent = s.connectedEvent ∧
    s'.initializedEvent = s.initializedEvent ∧ s'.authError = s.authError ∧
    s'.schema = s.schema ∧ s'.propertyCallbacks = s.propertyCallbacks := by
  unfold updateProperty at h
  rcases hn : updateNamed s.caches k v with _ | c
  · rw [hn] at h; exact Option.noConfusion h
  · rw [hn] at h
    simp only [Option.some.injEq, Prod.mk.injEq] at h
    obtain ⟨h1, -⟩ := h
    subst h1
    exact ⟨rfl, rfl, rfl, rfl, rfl, rfl, rfl, rfl, rfl, rfl, rfl⟩

lemma applyProps_some_fields {status : List (String × PyVal)} :
    ∀ {s s' : ClientState} {evs : List PropEvent}, applyProps s status = some (s', evs) →
    s'.device = s.device ∧ s'.wsOpen = s.wsOpen ∧ s'.loopRunning = s.loopRunning ∧
    s'.requestId = s.requestId ∧ s'.connected = s.connected ∧
    s'.allPropsInitialized = s.allPropsInitialized ∧ s'.connectedEvent = s.connectedEvent ∧
    s'.initializedEvent = s.initializedEvent ∧ s'.authError = s.authError ∧
    s'.schema = s.schema ∧ s'.propertyCallbacks = s.propertyCallbacks := by
  induction status with
  | nil =>
    intro s s' evs h
    simp only [applyProps, Option.some.injEq, Prod.mk.injEq] at h
    obtain ⟨h1, -⟩ := h
    subst h1
    exact ⟨rfl, rfl, rfl, rfl, rfl, rfl, rfl, rfl, rfl, rfl, rfl⟩
  | cons kv t ih =>
    intro s s' evs h
    unfold applyProps at h
    rcases hu : updateProperty s kv.1 kv.2 with _ | ⟨ps, pevs⟩
    · rw [hu] at h; exact Option.noConfusion h
    · rw [hu] at h
      dsimp only at h
      rcases ha : applyProps ps t with _ | q
      · rw [ha] at h; exact Option.noConfusion h
      · rw [ha] at h
        simp only [Option.some.injEq, Prod.mk.injEq] at h
        obtain ⟨h1, -⟩ := h
        subst h1
        obtain ⟨a1, a2, a3, a4, a5, a6, a7, a8, a9, a10, a11⟩ :=
          updateProperty_some_fields hu
        obtain ⟨b1, b2, b3, b4, b5, b6, b7, b8, b9, b10, b11⟩ := ih ha
        exact ⟨b1.trans a1, b2.trans a2, b3.trans a3, b4.trans a4, b5.trans a5, b6.trans a6,
               b7.trans a7, b8.trans a8, b9.trans a9, b10.trans a10, b11.trans a11⟩

/-- Source name of each special-cased key. -/
def nameOfKey : CacheKey → String
  | .acs => "acs" | .cbl => "cbl" | .fhz => "fhz" | .pha => "pha" | .wh => "wh"
  | .err => "err" | .ust => "ust" | .eto => "eto" | .cae => "cae" | .cak => "cak"
  | .lmo => "lmo" | .car => "car" | .alw => "alw" | .nrg => "nrg" | .amp => "amp"
  | .version => "version" | .ast => "ast" | .fwv => "fwv" | .wss => "wss"

lemma keyOf_name {k : String} {ck : CacheKey} (h : keyOf k = some ck) : k = nameOfKey ck := by
  unfold keyOf at h
  by_cases h0 : k = "acs"
  · rw [if_pos h0] at h
    injection h with h
    subst h
    exact h0
  · rw [if_neg h0] at h
    by_cases h1 : k = "cbl"
    · rw [if_pos h1] at h
      injection h with h
      subst h
      exact h1
    · rw [if_neg h1] at h
      by_cases h2 : k = "fhz"
      · rw [if_pos h2] at h
        injection h with h
        subst h
        exact h2
      · rw [if_neg h2] at h
        by_cases h3 : k = "pha"
        · rw [if_pos h3] at h
          injection h with h
          subst h
          exact h3
        · rw [if_neg h3] at h
          by_cases h4 : k = "wh"
          · rw [if_pos h4] at h
            injection h with h
            subst h
            exact h4
          · rw [if_neg h4] at h
            by_cases h5 : k = "err"
            · rw [if_pos h5] at h
              injection h with h
              subst h
              exact h5
            · rw [if_neg h5] at h
              by_cases h6 : k = "ust"
              · rw [if_pos h6] at h
                injection h with h
                subst h
                exact h6
              · rw [if_neg h6] at h
                by_cases h7 : k = "eto"
                · rw [if_pos h7] at h
                  injection h with h
                  subst h
                  exact h7
                · rw [if_neg h7] at h
                  by_cases h8 : k = "cae"
                  · rw [if_pos h8] at h
                    injection h with h
                    subst h
                    exact h8
                  · rw [if_neg h8] at h
                    by_cases h9 : k = "cak"
                    · rw [if_pos h9] at h
                      injection h with h
                      subst h
                      exact h9
                    · rw [if_neg h9] at h
                      by_cases h10 : k = "lmo"
                      · rw [if_pos h10] at h
                        injection h with h
                        subst h
                        exact h10
                      · rw [if_neg h10] at h
                        by_cases h11 : k = "car"
                        · rw [if_pos h11] at h
                          injection h with h
                          subst h
                          exact h11
                        · rw [if_neg h11] at h
                          by_cases h12 : k = "alw"
                          · rw [if_pos h12] at h
                            injection h with h
                            subst h
                            exact h12
                          · rw [if_neg h12] at h
                            by_cases h13 : k = "nrg"
                            · rw [if_pos h13] at h
                              injection h with h
                              subst h
                              exact h13
                            · rw [if_neg h13] at h
                              by_cases h14 : k = "amp"
                              · rw [if_pos h14] at h
                                injection h with h
                                subst h
                                exact h14
                              · rw [if_neg h14] at h
                                by_cases h15 : k = "version"
                                · rw [if_pos h15] at h
                                  injection h with h
                                  subst h
                                  exact h15
                                · rw [if_neg h15] at h
                                  by_cases h16 : k = "ast"
                                  · rw [if_pos h16] at h
                                    injection h with h
                                    subst h
                                    exact h16
                                  · rw [if_neg h16] at h
                                    by_cases h17 : k = "fwv"
                                    · rw [if_pos h17] at h
                                      injection h with h
                                      subst h
                                      exact h17
                                    · rw [if_neg h17] at h
                                      by_cases h18 : k = "wss"
                                      · rw [if_pos h18] at h
                                        injection h with h
                                        subst h
                                        exact h18
                                      · rw [if_neg h18] at h
                                        exact Option.noConfusion h

lemma updateNamed_cache_fields {c c' : NamedCaches} {k : String} {v : PyVal}
    (h : updateNamed c k v = some c') :
    (k ≠ "acs" → k ≠ "ast" → c'.accessState = c.accessState) ∧
    (k ≠ "cbl" → c'.cableType = c.cableType) ∧
    (k ≠ "fhz" → c'.frequency = c.frequency) ∧
    (k ≠ "pha" → c'.phases = c.phases) ∧
    (k ≠ "wh" → c'.energyCounterSinceStart = c.energyCounterSinceStart) ∧
    (k ≠ "err" → c'.errorState = c.errorState) ∧
    (k ≠ "ust" → c'.cableLock = c.cableLock) ∧
    (k ≠ "eto" → c'.energyCounterTotal = c.energyCounterTotal) ∧
    (k ≠ "cae" → c'.cae = c.cae) ∧
    (k ≠ "cak" → c'.cak = c.cak) ∧
    (k ≠ "lmo" → c'.mode = c.mode) ∧
    (k ≠ "car" → c'.carConnected = c.carConnected) ∧
    (k ≠ "alw" → c'.allowCharging = c.allowCharging) ∧
    (k ≠ "amp" → c'.amp = c.amp) ∧
    (k ≠ "version" → c'.version = c.version) ∧
    (k ≠ "fwv" → c'.firmware = c.firmware) ∧
    (k ≠ "wss" → c'.wifiSsid = c.wifiSsid) ∧
    (k ≠ "nrg" → c'.voltage1 = c.voltage1 ∧ c'.voltage2 = c.voltage2 ∧
      c'.voltage3 = c.voltage3 ∧ c'.voltageN = c.voltageN ∧ c'.amps1 = c.amps1 ∧
      c'.amps2 = c.amps2 ∧ c'.amps3 = c.amps3 ∧ c'.power1 = c.power1 ∧
      c'.power2 = c.power2 ∧ c'.power3 = c.power3 ∧ c'.powerN = c.powerN ∧
      c'.power = c.power) := by
  unfold updateNamed at h
  rcases hk : keyOf k with _ | ck
  · rw [hk] at h
    injection h with h
    subst h
    refine ⟨?_, ?_, ?_, ?_, ?_, ?_, ?_, ?_, ?_, ?_, ?_, ?_, ?_, ?_, ?_, ?_, ?_, ?_⟩ <;>
      intros <;> first
        | rfl
        | exact ⟨rfl, rfl, rfl, rfl, rfl, rfl, rfl, rfl, rfl, rfl, rfl, rfl⟩
  · rw [hk] at h
    have hkn := keyOf_name hk
    cases ck
    all_goals dsimp only [nameOfKey] at hkn
    all_goals dsimp only at h
    all_goals repeat' split at h
    all_goals try exact Option.noConfusion h
    all_goals injection h with h
    all_goals subst h
    all_goals
      refine ⟨?_, ?_, ?_, ?_, ?_, ?_, ?_, ?_, ?_, ?_, ?_, ?_, ?_, ?_, ?_, ?_, ?_, ?_⟩ <;>
        intros <;> first
          | rfl
          | exact ⟨rfl, rfl, rfl, rfl, rfl, rfl, rfl, rfl, rfl, rfl, rfl, rfl⟩
          | exact absurd hkn (by assumption)

/-! ### C1 -/

/-- C1: on receipt of an auth-failure frame carrying message `m`, the handler
writes the captured-error slot strictly before signaling the connected event
(the trace lists the two actions in that order, and the state being signaled
already holds the error), so the woken `connect()` observes the stored error:
it tears down the transport, raises `AuthenticationError m`, and the client's
connected flag is left `false`. -/
theorem c1_auth_failure_error_before_event (s : ClientState) (m : String) :
    (onAuthError s (some m)).2 =
      [AuthAction.writeErrorSlot m, AuthAction.signalConnectedEvent] ∧
    (writeErrorSlotStep s m).1.authError = some m ∧
    (onAuthError s (some m)).1 = (signalConnectedStep (writeErrorSlotStep s m).1).1 ∧
    (onAuthError s (some m)).1.authError = some m ∧
    (onAuthError s (some m)).1.connectedEvent = true ∧
    connectResume (onAuthError s (some m)).1 =
      (some (WpErr.authenticationErr m), disconnectClient (onAuthError s (some m)).1) ∧
    (connectResume (onAuthError s (some m)).1).2.connected = false ∧
    (connectResume (onAuthError s (some m)).1).2.wsOpen = false :=
  ⟨rfl, rfl, rfl, rfl, rfl, rfl, rfl, rfl⟩

/-! ### C2 -/

/-- C2: a full-snapshot frame whose partial indicator is present and true
while initialization is incomplete leaves it incomplete (and does not fire the
initialized event); a full-snapshot frame with the indicator absent or false
marks initialization complete and fires the initialized event; and a delta
frame arriving before initialization completes marks it complete
immediately. -/
theorem c2_snapshot_initialization (s : ClientState) (status : List (String × PyVal)) :
    (∀ r, s.allPropsInitialized = false → onFullStatus s status (some true) = some r →
      r.1.allPropsInitialized = false ∧ r.1.initializedEvent = s.initializedEvent) ∧
    (∀ pf r, pf = none ∨ pf = some false → onFullStatus s status pf = some r →
      r.1.allPropsInitialized = true ∧ r.1.initializedEvent = true) ∧
    (∀ r, s.allPropsInitialized = false → onDeltaStatus s status = some r →
      r.1.allPropsInitialized = true ∧ r.1.initializedEvent = true) := by
  refine ⟨?_, ?_, ?_⟩
  · intro r hinit h
    unfold onFullStatus at h
    rcases happ : applyProps s status with _ | ⟨s1, evs⟩
    · rw [happ] at h; exact Option.noConfusion h
    · rw [happ] at h
      dsimp only at h
      obtain ⟨-, -, -, -, -, h6, -, h8, -, -, -⟩ := applyProps_some_fields happ
      rw [h6, hinit] at h
      dsimp only [Bool.not_true] at h
      rw [if_neg (by simp)] at h
      injection h with h
      subst h
      exact ⟨h6.trans hinit, h8⟩
  · intro pf r hpf h
    unfold onFullStatus at h
    rcases happ : applyProps s status with _ | ⟨s1, evs⟩
    · rw [happ] at h; exact Option.noConfusion h
    · rw [happ] at h
      dsimp only at h
      rcases hpf with rfl | rfl
      · rcases hb : s1.allPropsInitialized with _ | _
        all_goals rw [hb] at h
        all_goals dsimp only at h
        all_goals injection h with h
        all_goals subst h
        all_goals exact ⟨rfl, rfl⟩
      · rcases hb : s1.allPropsInitialized with _ | _
        all_goals rw [hb] at h
        all_goals dsimp only at h
        · rw [if_pos (by decide : (!false) = true)] at h
          injection h with h
          subst h
          exact ⟨rfl, rfl⟩
        · injection h with h
          subst h
          exact ⟨rfl, rfl⟩
  · intro r hinit h
    unfold onDeltaStatus at h
    rw [hinit] at h
    dsimp only [Bool.not_false, if_pos] at h
    obtain ⟨-, -, -, -, -, h6, -, h8, -, -, -⟩ := applyProps_some_fields h
    exact ⟨h6, h8⟩

/-- Witness for C2 at a concrete client and payload: a partial snapshot leaves
initialization incomplete; a snapshot without the indicator and a first delta
complete it. -/
theorem c2_witness :
    (onFullStatus demoClient [("amp", PyVal.pint 16)] (some true)).map
        (fun r => r.1.allPropsInitialized) = some false ∧
    (onFullStatus demoClient [("amp", PyVal.pint 16)] none).map
        (fun r => r.1.allPropsInitialized) = some true ∧
    (onDeltaStatus demoClient [("amp", PyVal.pint 10)]).map
        (fun r => r.1.allPropsInitialized) = some true := by
  obtain ⟨r1, hr1⟩ : ∃ r, onFullStatus demoClient [("amp", PyVal.pint 16)] (some true) = some r :=
    ⟨_, rfl⟩
  obtain ⟨r2, hr2⟩ : ∃ r, onFullStatus demoClient [("amp", PyVal.pint 16)] none = some r :=
    ⟨_, rfl⟩
  obtain ⟨r3, hr3⟩ : ∃ r, onDeltaStatus demoClient [("amp", PyVal.pint 10)] = some r :=
    ⟨_, rfl⟩
  have h := c2_snapshot_initialization demoClient [("amp", PyVal.pint 16)]
  have h' := c2_snapshot_initialization demoClient [("amp", PyVal.pint 10)]
  refine ⟨?_, ?_, ?_⟩
  · rw [hr1]; exact congrArg some ((h.1 r1 rfl hr1).1)
  · rw [hr2]; exact congrArg some ((h.2.1 none r2 (Or.inl rfl) hr2).1)
  · rw [hr3]; exact congrArg some ((h'.2.2 r3 rfl hr3).1)

/-! ### C9 -/

/-- C9 (amended): the device identity is populated from the greeting frame —
serial, manufacturer, device type and protocol are always overwritten (with
empty/zero defaults when absent), while hostname/name, friendly name, version
and the secured flag are overwritten only when the greeting carries them and
otherwise retain their previous-session values — and it is never reset:
neither `disconnect()` nor the start of `connect()` touches it. -/
theorem c9_device_identity_persists (s : ClientState) (g : HelloMsg) :
    (disconnectClient s).device = s.device ∧
    (connectStart s).device = s.device ∧
    (onHello s g).device.serial = g.serial ∧
    (onHello s g).device.manufacturer = g.manufacturer.getD "" ∧
    (onHello s g).device.device_type = g.devicetype.getD "" ∧
    (onHello s g).device.protocol = g.protocol.getD 0 ∧
    (∀ hn, g.hostname = some hn →
      (onHello s g).device.hostname = hn ∧ (onHello s g).device.name = hn) ∧
    (g.hostname = none →
      (onHello s g).device.hostname = s.device.hostname ∧
      (onHello s g).device.name = s.device.name) ∧
    (∀ fn, g.friendly_name = some fn → (onHello s g).device.friendly_name = fn) ∧
    (g.friendly_name = none → (onHello s g).device.friendly_name = s.device.friendly_name) ∧
    (∀ ver, g.version = some ver → (onHello s g).device.version = ver) ∧
    (g.version = none → (onHello s g).device.version = s.device.version) ∧
    (∀ sec, g.secured = some sec → (onHello s g).device.secured = sec) ∧
    (g.secured = none → (onHello s g).device.secured = s.device.secured) ∧
    (onHello s g).device.firmware = s.device.firmware := by
  rcases g with ⟨se, ho, fr, ve, ma, de, pr, sec⟩
  cases ho <;> cases fr <;> cases ve <;> cases sec <;>
    refine ⟨rfl, rfl, rfl, rfl, rfl, rfl, ?_, ?_, ?_, ?_, ?_, ?_, ?_, ?_, rfl⟩ <;>
      intros <;>
        first
          | exact ⟨rfl, rfl⟩
          | rfl
          | ((rename_i heq
              cases heq) <;>
             first
               | exact ⟨rfl, rfl⟩
               | rfl)

/-- Witness for C9 at the concrete greetings: every present field lands in
the identity, and disconnect leaves the identity alone. -/
theorem c9_witness :
    (onHello demoClient hello1).device.secured = 1 ∧
    (onHello demoClient hello1).device.hostname = "wp1" ∧
    (disconnectClient (onHello demoClient hello1)).device =
      (onHello demoClient hello1).device ∧
    (onHello demoClient hello2).device.secured = demoClient.device.secured := by
  have h1 := c9_device_identity_persists demoClient hello1
  have h2 := c9_device_identity_persists (onHello demoClient hello1) hello1
  have h3 := c9_device_identity_persists demoClient hello2
  exact ⟨(h1.2.2.2.2.2.2.2.2.2.2.2.2.1) 1 rfl,
    ((h1.2.2.2.2.2.2.1) "wp1" rfl).1,
    h2.1,
    h3.2.2.2.2.2.2.2.2.2.2.2.2.2.1 rfl⟩

/-- Counterexample for C9: after `disconnect()` and a reconnect whose greeting
carries no `secured` field, the identity still holds the previous session's
secured flag (1), whereas a cleared identity populated only from the new
greeting would hold 0 — so a reconnect does not start from a cleared
identity. -/
theorem c9_counterexample :
    (onHello (connectStart (disconnectClient (onHello (connectStart demoClient) hello1)))
        hello2).device.secured = 1 ∧
    (onHello demoClient hello2).device.secured = 0 ∧
    (onHello (connectStart (disconnectClient (onHello (connectStart demoClient) hello1)))
        hello2).device ≠ (onHello demoClient hello2).device := by
  refine ⟨rfl, rfl, ?_⟩
  intro h
  have := congrArg DeviceInfo.secured h
  simp [onHello, demoClient, hello1, hello2, connectStart, disconnectClient,
    initialClient, emptyDevice] at this

lemma assocGet_assocSet_self (l : List (String × PyVal)) (k : String) (v : PyVal) :
    assocGet (assocSet l k v) k = some v := by
  induction l with
  | nil => simp [assocSet, assocGet]
  | cons p t ih =>
    rcases p with ⟨k0, v0⟩
    by_cases h : k0 = k
    · rw [assocSet, if_pos h, assocGet, if_pos rfl]
    · rw [assocSet, if_neg h, assocGet, if_neg h]
      exact ih

lemma assocGet_assocSet_ne (l : List (String × PyVal)) (k k' : String) (v : PyVal)
    (h : k' ≠ k) : assocGet (assocSet l k v) k' = assocGet l k' := by
  induction l with
  | nil =>
    show (if k = k' then some v else assocGet [] k') = none
    rw [if_neg (fun hk => h hk.symm)]
    rfl
  | cons p t ih =>
    rcases p with ⟨k0, v0⟩
    by_cases h0 : k0 = k
    · rw [assocSet, if_pos h0, assocGet, if_neg (fun hk => h hk.symm), assocGet,
        if_neg (h0 ▸ fun hk => h hk.symm)]
    · rw [assocSet, if_neg h0, assocGet, assocGet]
      by_cases h1 : k0 = k'
      · rw [if_pos h1, if_pos h1]
      · rw [if_neg h1, if_neg h1]
        exact ih

/-! ### C8 -/

/-- C8: handling a delta frame whose status payload carries exactly one key
`k` (with a well-formed value when `k` is the composite `nrg` array) succeeds,
updates only the stored entry for `k`, leaves every named fast-access field
not derived from `k` unchanged, and invokes each registered property-change
listener exactly once with `(k, v)`. -/
theorem c8_delta_single_key (s : ClientState) (k : String) (v : PyVal)
    (hwf : k = "nrg" → ∃ l, v = PyVal.plist l ∧ 12 ≤ l.length ∧
      (pyMulMilli (l.getD 7 .pnone)).isSome ∧ (pyMulMilli (l.getD 8 .pnone)).isSome ∧
      (pyMulMilli (l.getD 9 .pnone)).isSome ∧ (pyMulMilli (l.getD 10 .pnone)).isSome ∧
      (pyMulMilli (l.getD 11 .pnone)).isSome) :
    (onDeltaStatus s [(k, v)]).isSome = true ∧
    ∀ r, onDeltaStatus s [(k, v)] = some r →
      assocGet r.1.allProps k = some v ∧
      (∀ k', k' ≠ k → assocGet r.1.allProps k' = assocGet s.allProps k') ∧
      r.2 = s.propertyCallbacks.map (fun cb => (cb, k, v)) ∧
      (k ≠ "acs" → k ≠ "ast" → r.1.caches.accessState = s.caches.accessState) ∧
      (k ≠ "cbl" → r.1.caches.cableType = s.caches.cableType) ∧
      (k ≠ "fhz" → r.1.caches.frequency = s.caches.frequency) ∧
      (k ≠ "pha" → r.1.caches.phases = s.caches.phases) ∧
      (k ≠ "wh" → r.1.caches.energyCounterSinceStart = s.caches.energyCounterSinceStart) ∧
      (k ≠ "err" → r.1.caches.errorState = s.caches.errorState) ∧
      (k ≠ "ust" → r.1.caches.cableLock = s.caches.cableLock) ∧
      (k ≠ "eto" → r.1.caches.energyCounterTotal = s.caches.energyCounterTotal) ∧
      (k ≠ "cae" → r.1.caches.cae = s.caches.cae) ∧
      (k ≠ "cak" → r.1.caches.cak = s.caches.cak) ∧
      (k ≠ "lmo" → r.1.caches.mode = s.caches.mode) ∧
      (k ≠ "car" → r.1.caches.carConnected = s.caches.carConnected) ∧
      (k ≠ "alw" → r.1.caches.allowCharging = s.caches.allowCharging) ∧
      (k ≠ "amp" → r.1.caches.amp = s.caches.amp) ∧
      (k ≠ "version" → r.1.caches.version = s.caches.version) ∧
      (k ≠ "fwv" → r.1.caches.firmware = s.caches.firmware) ∧
      (k ≠ "wss" → r.1.caches.wifiSsid = s.caches.wifiSsid) ∧
      (k ≠ "nrg" → r.1.caches.voltage1 = s.caches.voltage1 ∧
        r.1.caches.voltage2 = s.caches.voltage2 ∧ r.1.caches.voltage3 = s.caches.voltage3 ∧
        r.1.caches.voltageN = s.caches.voltageN ∧ r.1.caches.amps1 = s.caches.amps1 ∧
        r.1.caches.amps2 = s.caches.amps2 ∧ r.1.caches.amps3 = s.caches.amps3 ∧
        r.1.caches.power1 = s.caches.power1 ∧ r.1.caches.power2 = s.caches.power2 ∧
        r.1.caches.power3 = s.caches.power3 ∧ r.1.caches.powerN = s.caches.powerN ∧
        r.1.caches.power = s.caches.power) := by
  have hsome : ∃ c', updateNamed s.caches k v = some c' := by
    unfold updateNamed
    rcases hk : keyOf k with _ | ck
    · exact ⟨s.caches, rfl⟩
    · have hkn := keyOf_name hk
      cases ck
      case nrg =>
        obtain ⟨l, hv, hlen, h7, h8, h9, h10, h11⟩ := hwf hkn
        subst hv
        dsimp only
        rw [if_pos hlen]
        obtain ⟨p7, hp7⟩ := Option.isSome_iff_exists.mp h7
        obtain ⟨p8, hp8⟩ := Option.isSome_iff_exists.mp h8
        obtain ⟨p9, hp9⟩ := Option.isSome_iff_exists.mp h9
        obtain ⟨p10, hp10⟩ := Option.isSome_iff_exists.mp h10
        obtain ⟨p11, hp11⟩ := Option.isSome_iff_exists.mp h11
        rw [hp7, hp8, hp9, hp10, hp11]
        exact ⟨_, rfl⟩
      all_goals exact ⟨_, rfl⟩
  obtain ⟨c', hc'⟩ := hsome
  have hstep : ∀ t : ClientState, t.caches = s.caches → t.allProps = s.allProps →
      t.propertyCallbacks = s.propertyCallbacks →
      applyProps t [(k, v)] =
        some ({ t with allProps := assocSet s.allProps k v, caches := c' },
          s.propertyCallbacks.map (fun cb => (cb, k, v)) ++ []) := by
    intro t hts htp htcb
    unfold applyProps updateProperty
    rw [htp, htcb, hts, hc']
    rfl
  have hd : onDeltaStatus s [(k, v)] =
      some ({ (if !s.allPropsInitialized then
                { s with allPropsInitialized := true, initializedEvent := true }
              else s) with allProps := assocSet s.allProps k v, caches := c' },
        s.propertyCallbacks.map (fun cb => (cb, k, v)) ++ []) := by
    unfold onDeltaStatus
    rcases s.allPropsInitialized
    · rw [if_pos (by decide)]
      exact hstep _ rfl rfl rfl
    · rw [if_neg (by decide)]
      exact hstep _ rfl rfl rfl
  rw [hd]
  refine ⟨rfl, ?_⟩
  intro r hr
  injection hr with hr
  subst hr
  obtain ⟨n1, n2, n3, n4, n5, n6, n7, n8, n9, n10, n11, n12, n13, n14, n15, n16, n17, n18⟩ :=
    updateNamed_cache_fields hc'
  exact ⟨assocGet_assocSet_self s.allProps k v,
    fun k' hk' => assocGet_assocSet_ne s.allProps k k' v hk',
    List.append_nil _,
    n1, n2, n3, n4, n5, n6, n7, n8, n9, n10, n11, n12, n13, n14, n15, n16, n17, n18⟩

/-- Witness for C8 at the spec's own example: a delta `{amp: 10}` on the
fixture client updates `amp`, leaves `lmo` absent, and fires both registered
listeners once with `("amp", 10)`. -/
theorem c8_witness :
    (onDeltaStatus demoClient [("amp", PyVal.pint 10)]).map
      (fun r => (assocGet r.1.allProps "amp", assocGet r.1.allProps "lmo", r.2)) =
    some (some (PyVal.pint 10), none,
      [(0, "amp", PyVal.pint 10), (1, "amp", PyVal.pint 10)]) := by
  have h := c8_delta_single_key demoClient "amp" (PyVal.pint 10)
    (fun hk => absurd hk (by decide))
  obtain ⟨r, hr⟩ : ∃ r, onDeltaStatus demoClient [("amp", PyVal.pint 10)] = some r := ⟨_, rfl⟩
  obtain ⟨h1, h2, h3, -⟩ := h.2 r hr
  rw [hr]
  simp only [Option.map_some']
  rw [h1, h3, h2 "lmo" (by decide)]
  rfl

/-! ### C7 -/

/-- C7: calling `set_property` on a property whose declared schema type is
boolean, integer or float with a string that cannot be converted under the
stated rules raises `PropertyError`, sends no frame, and leaves the entire
client state (request-id counter included) unchanged: coercion happens
strictly before send. -/
theorem c7_set_property_bad_string (s : ClientState) (name : String) (v : PyVal)
    (jt : String) (hjt : schemaLookup s.schema name = some jt)
    (hbad :
      (jt = "boolean" ∧ ∃ str, v = PyVal.pstr str ∧
        pyLower str ∉ (["true", "1", "yes", "false", "0", "no"] : List String)) ∨
      (jt = "integer" ∧ ∃ str, v = PyVal.pstr str ∧
        pyParseInt str = none ∧ pyParseFloat str = none) ∨
      (jt = "float" ∧ ∃ str, v = PyVal.pstr str ∧ pyParseFloat str = none)) :
    isPropertyErr (setProperty s name v).1 = true ∧
    (setProperty s name v).2.1 = s ∧
    (setProperty s name v).2.2 = [] := by
  have hco : ∃ e, coerceValue s name v = .error e := by
    have hred : ∀ w jt', schemaLookup s.schema name = some jt' → jt' ≠ "" →
        coerceValue s name w = coerceToJsonType w jt' name := by
      intro w jt' hj hne
      unfold coerceValue
      rw [hj]
      exact if_neg hne
    rcases hbad with ⟨rfl, str, rfl, hstr⟩ | ⟨rfl, str, rfl, hi, hf⟩ | ⟨rfl, str, rfl, hf⟩
    · rw [hred _ _ hjt (by decide), coerceToJsonType, if_pos rfl]
      dsimp only
      simp only [List.mem_cons, List.mem_singleton, not_or] at hstr
      obtain ⟨u1, u2, u3, u4, u5, u6⟩ := hstr
      rw [if_neg (by simp [u1, u2, u3]), if_neg (by simp [u4, u5, u6])]
      exact ⟨_, rfl⟩
    · rw [hred _ _ hjt (by decide), coerceToJsonType, if_neg (by decide), if_pos rfl]
      rw [hi, hf]
      exact ⟨_, rfl⟩
    · rw [hred _ _ hjt (by decide), coerceToJsonType, if_neg (by decide), if_neg (by decide),
        if_pos rfl]
      rw [hf]
      exact ⟨_, rfl⟩
  obtain ⟨e, he⟩ := hco
  unfold setProperty
  rw [he]
  exact ⟨rfl, rfl, rfl⟩

/-- Witness for C7: on the fixture schema, `set_property("amp", "zz")` (an
integer-typed property) raises a `PropertyError` and sends nothing, leaving
the client untouched. -/
theorem c7_witness :
    isPropertyErr (setProperty demoClientOnline "amp" (PyVal.pstr "zz")).1 = true ∧
    (setProperty demoClientOnline "amp" (PyVal.pstr "zz")).2.1 = demoClientOnline ∧
    (setProperty demoClientOnline "amp" (PyVal.pstr "zz")).2.2 = [] :=
  c7_set_property_bad_string demoClientOnline "amp" (PyVal.pstr "zz") "integer" rfl
    (Or.inr (Or.inl ⟨rfl, "zz", rfl, by decide, by decide⟩))

lemma sendFrame_closed {s : ClientState} (h : s.wsOpen = false) (m : SetValueMsg)
    (secure : Bool) :
    sendFrame s m secure = (some (.connectionErr "Not connected"), s, []) := by
  unfold sendFrame
  rw [h]
  rfl

lemma coerce_pint_ok (s : ClientState) (name : String) (n : Int) :
    ∃ v', coerceValue s name (.pint n) = .ok v' := by
  unfold coerceValue
  rcases hs : schemaLookup s.schema name with _ | jt
  · exact ⟨_, rfl⟩
  · show ∃ v',
      (if jt = "" then Except.ok (PyVal.pint n)
       else coerceToJsonType (PyVal.pint n) jt name) = Except.ok v'
    by_cases h0 : jt = ""
    · rw [if_pos h0]; exact ⟨_, rfl⟩
    · rw [if_neg h0]
      unfold coerceToJsonType
      by_cases h1 : jt = "boolean"
      · rw [if_pos h1]; exact ⟨_, rfl⟩
      · rw [if_neg h1]
        by_cases h2 : jt = "integer"
        · rw [if_pos h2]; exact ⟨_, rfl⟩
        · rw [if_neg h2]
          by_cases h3 : jt = "float"
          · rw [if_pos h3]; exact ⟨_, rfl⟩
          · rw [if_neg h3]
            by_cases h4 : jt = "string"
            · rw [if_pos h4]; exact ⟨_, rfl⟩
            · rw [if_neg h4]; exact ⟨_, rfl⟩

/-! ### C10 -/

/-- C10 (amended): a command operation invoked while no WebSocket transport is
open transmits nothing and raises `ConnectionError` — for `set_property` as
soon as the value passes coercion, and unconditionally for the integer-valued
wrappers `set_power` / `set_mode` and for `set_next_trip` (whose stored
daylight-saving indicator must be absent or numeric for `int(tds)` to
succeed); in particular any such command issued right after `disconnect()`
fails with `ConnectionError` rather than being silently dropped. -/
theorem c10_commands_require_transport (s : ClientState) (hws : s.wsOpen = false) :
    (∀ name v v', coerceValue s name v = .ok v' →
      setProperty s name v =
        (some (WpErr.connectionErr "Not connected"),
         { s with requestId := s.requestId + 1 }, [])) ∧
    (∀ n, setPower s n =
      (some (WpErr.connectionErr "Not connected"),
       { s with requestId := s.requestId + 1 }, [])) ∧
    (∀ n, setMode s n =
      (some (WpErr.connectionErr "Not connected"),
       { s with requestId := s.requestId + 1 }, [])) ∧
    (∀ hh mm ss : Nat,
      (assocGet s.allProps "tds" = none ∨
        ∃ tv n0, assocGet s.allProps "tds" = some tv ∧ pyIntOf tv = some n0) →
      (setNextTrip s hh mm ss).map (fun r => (r.1, r.2.2)) =
        some (some (WpErr.connectionErr "Not connected"), [])) ∧
    (∀ t : ClientState, ∀ n,
      (setPower (disconnectClient t) n).1 = some (WpErr.connectionErr "Not connected") ∧
      (setPower (disconnectClient t) n).2.2 = []) := by
  have hsp : ∀ name v v', coerceValue s name v = .ok v' →
      setProperty s name v =
        (some (WpErr.connectionErr "Not connected"),
         { s with requestId := s.requestId + 1 }, []) := by
    intro name v v' hco
    unfold setProperty
    rw [hco]
    exact sendFrame_closed (s := { s with requestId := s.requestId + 1 }) hws _ _
  have hpow : ∀ n, setPower s n =
      (some (WpErr.connectionErr "Not connected"),
       { s with requestId := s.requestId + 1 }, []) := by
    intro n
    obtain ⟨v', hv⟩ := coerce_pint_ok s "amp" n
    exact hsp "amp" _ v' hv
  refine ⟨hsp, hpow, ?_, ?_, ?_⟩
  · intro n
    obtain ⟨v', hv⟩ := coerce_pint_ok s "lmo" n
    exact hsp "lmo" _ v' hv
  · intro hh mm ss htds
    unfold setNextTrip
    rcases htds with htds | ⟨tv, n0, htds, hint⟩
    · rw [htds]
      dsimp only [Option.map_some']
      obtain ⟨v', hv⟩ := coerce_pint_ok s "ftt" (hh * 3600 + mm * 60 + ss)
      rw [hsp "ftt" _ v' hv]
    · rw [htds]
      dsimp only
      rw [hint]
      dsimp only [Option.map_some']
      obtain ⟨v', hv⟩ :=
        coerce_pint_ok s "ftt" (if n0 = 1 || n0 = 2 then hh * 3600 + mm * 60 + ss + 3600
          else hh * 3600 + mm * 60 + ss)
      rw [hsp "ftt" _ v' hv]
  · intro t n
    obtain ⟨v', hv⟩ := coerce_pint_ok (disconnectClient t) "amp" n
    have hws' : (disconnectClient t).wsOpen = false := rfl
    have hsp' : setPower (disconnectClient t) n =
        (some (WpErr.connectionErr "Not connected"),
         { disconnectClient t with requestId := (disconnectClient t).requestId + 1 }, []) := by
      unfold setPower setProperty
      rw [hv]
      exact sendFrame_closed (s := { disconnectClient t with
        requestId := (disconnectClient t).requestId + 1 }) hws' _ _
    rw [hsp']
    exact ⟨rfl, rfl⟩

/-- Witness for C10: on the fresh fixture client (transport closed, request
id 0), `set_power(16)` raises `ConnectionError` with nothing transmitted, and
so does `set_next_trip(6:30:00)`. -/
theorem c10_witness :
    setPower demoClient 16 =
      (some (WpErr.connectionErr "Not connected"), { demoClient with requestId := 1 }, []) ∧
    (setNextTrip demoClient 6 30 0).map (fun r => (r.1, r.2.2)) =
      some (some (WpErr.connectionErr "Not connected"), []) := by
  have h := c10_commands_require_transport demoClient rfl
  exact ⟨h.2.1 16, h.2.2.2.1 6 30 0 (Or.inl rfl)⟩

/-- Counterexample for C10: with no transport open, `set_property` on an
integer-typed property with an unconvertible string raises `PropertyError` —
not the `ConnectionError` the claim promises for every command operation
(nothing is transmitted either way). -/
theorem c10_counterexample :
    demoClient.wsOpen = false ∧
    (setProperty demoClient "amp" (PyVal.pstr "zz")).1 =
      some (WpErr.propertyErr "Cannot convert 'zz' to int for property 'amp'") ∧
    (setProperty demoClient "amp" (PyVal.pstr "zz")).2.2 = [] ∧
    (setProperty demoClient "amp" (PyVal.pstr "zz")).1 ≠
      some (WpErr.connectionErr "Not connected") := by
  refine ⟨rfl, by decide, rfl, by decide⟩

lemma length_beBytes (k w : Nat) : (beBytes k w).length = k := by
  induction k generalizing w with
  | zero => rfl
  | succ k ih => simp [beBytes, ih]

lemma mem_beBytes_lt {k w c : Nat} (h : c ∈ beBytes k w) : c < 256 := by
  induction k generalizing w with
  | zero => cases h
  | succ k ih =>
    rcases h with _ | h
    · exact Nat.mod_lt _ (by omega)
    · exact ih (by assumption)

lemma length_hexAscii (bs : Bytes) : (hexAscii bs).length = 2 * bs.length := by
  induction bs with
  | nil => rfl
  | cons b t ih => simp [hexAscii, ih]; omega

lemma isHexLower_hexChar {d : Nat} (h : d < 16) : isHexLower (hexChar d) = true := by
  unfold hexChar isHexLower
  by_cases h10 : d < 10
  · rw [if_pos h10]
    simp
    omega
  · rw [if_neg h10]
    simp
    omega

lemma mem_hexAscii {bs : Bytes} (hb : ∀ b ∈ bs, b < 256) :
    ∀ c ∈ hexAscii bs, isHexLower c = true := by
  induction bs with
  | nil => intro c hc; cases hc
  | cons b t ih =>
    intro c hc
    rw [hexAscii] at hc
    simp only [List.mem_cons] at hc
    have hb0 : b < 256 := hb b (List.mem_cons_self b t)
    have hdiv : b / 16 < 16 := Nat.div_lt_of_lt_mul (by omega)
    have hmod : b % 16 < 16 := Nat.mod_lt _ (by omega)
    rcases hc with rfl | rfl | hc
    · exact isHexLower_hexChar hdiv
    · exact isHexLower_hexChar hmod
    · exact ih (fun x hx => hb x (List.mem_cons_of_mem b hx)) c hc

lemma length_h8Bytes (wb : Nat) (st : H8) : (h8Bytes wb st).length = 8 * wb := by
  simp [h8Bytes, length_beBytes]
  omega

lemma mem_h8Bytes_lt {wb : Nat} {st : H8} {c : Nat} (h : c ∈ h8Bytes wb st) : c < 256 := by
  simp only [h8Bytes, List.mem_append] at h
  rcases h with ((((((h | h) | h) | h) | h) | h) | h) | h <;> exact mem_beBytes_lt h

lemma length_sha256Bytes (msg : Bytes) : (sha256Bytes msg).length = 32 :=
  length_h8Bytes 4 _

lemma mem_sha256Bytes_lt {msg : Bytes} : ∀ c ∈ sha256Bytes msg, c < 256 :=
  fun _ h => mem_h8Bytes_lt h

lemma length_sha512Bytes (msg : Bytes) : (sha512Bytes msg).length = 64 :=
  length_h8Bytes 8 _

/-! ### C3 -/

/-- C3 (amended): `compute_auth_response` equals the hex digest of SHA-256
over `token3 ++ token2 ++ hexdigest(SHA-256(token1 ++ secret))`, is
deterministic, and always returns 64 lowercase-hex characters; changing any
single token (the others fixed) changes the byte string fed to the
corresponding SHA-256 stage — but distinct `(token2, token3)` pairs with
equal concatenation `token3 ++ token2` provably produce identical responses,
so the response does not always change when tokens change. -/
theorem c3_compute_auth_response (t1 t2 t3 secret : Bytes) :
    computeAuthResponse t1 t2 t3 secret =
      hexAscii (sha256Bytes (t3 ++ t2 ++ hexAscii (sha256Bytes (t1 ++ secret)))) ∧
    (computeAuthResponse t1 t2 t3 secret).length = 64 ∧
    (∀ c ∈ computeAuthResponse t1 t2 t3 secret, isHexLower c = true) ∧
    (∀ t1' t2' t3' secret', t1 = t1' → t2 = t2' → t3 = t3' → secret = secret' →
      computeAuthResponse t1 t2 t3 secret = computeAuthResponse t1' t2' t3' secret') ∧
    (∀ t1', t1 ≠ t1' → t1 ++ secret ≠ t1' ++ secret) ∧
    (∀ t2', t2 ≠ t2' →
      t3 ++ t2 ++ hexAscii (sha256Bytes (t1 ++ secret)) ≠
        t3 ++ t2' ++ hexAscii (sha256Bytes (t1 ++ secret))) ∧
    (∀ t3', t3 ≠ t3' →
      t3 ++ t2 ++ hexAscii (sha256Bytes (t1 ++ secret)) ≠
        t3' ++ t2 ++ hexAscii (sha256Bytes (t1 ++ secret))) := by
  refine ⟨rfl, ?_, ?_, ?_, ?_, ?_, ?_⟩
  · rw [show computeAuthResponse t1 t2 t3 secret =
        hexAscii (sha256Bytes (t3 ++ t2 ++ hexAscii (sha256Bytes (t1 ++ secret)))) from rfl,
      length_hexAscii, length_sha256Bytes]
  · intro c hc
    exact mem_hexAscii (fun b hb => mem_sha256Bytes_lt b hb) c hc
  · intro t1' t2' t3' secret' h1 h2 h3 h4
    rw [h1, h2, h3, h4]
  · exact fun t1' hne h => hne (List.append_cancel_right h)
  · intro t2' hne h
    exact hne (List.append_cancel_left (List.append_cancel_right h))
  · intro t3' hne h
    exact hne (List.append_cancel_right (List.append_cancel_right h))

/-- Witness for C3 at concrete tokens: the formula, length, hex-alphabet,
determinism and stage-input-sensitivity facts at `("t1", "t2", "t3",
"secret")` and single-character variations. -/
theorem c3_witness :
    computeAuthResponse (strBytes "t1") (strBytes "t2") (strBytes "t3") (strBytes "secret") =
      hexAscii (sha256Bytes (strBytes "t3" ++ strBytes "t2" ++
        hexAscii (sha256Bytes (strBytes "t1" ++ strBytes "secret")))) ∧
    (computeAuthResponse (strBytes "t1") (strBytes "t2") (strBytes "t3")
      (strBytes "secret")).length = 64 ∧
    strBytes "t1" ++ strBytes "secret" ≠ strBytes "u1" ++ strBytes "secret" := by
  have h := c3_compute_auth_response (strBytes "t1") (strBytes "t2") (strBytes "t3")
    (strBytes "secret")
  exact ⟨h.1, h.2.1, h.2.2.2.2.1 (strBytes "u1") (by decide)⟩

/-- Counterexample for C3: two distinct `(token2, token3)` pairs whose
concatenation `token3 ++ token2` coincides yield the same response, so the
response does not change whenever a token changes. -/
theorem c3_counterexample :
    ((strBytes "c", strBytes "ab") : Bytes × Bytes) ≠ (strBytes "bc", strBytes "a") ∧
    computeAuthResponse [] (strBytes "c") (strBytes "ab") [] =
      computeAuthResponse [] (strBytes "bc") (strBytes "a") [] := by
  refine ⟨by decide, ?_⟩
  show hexAscii (sha256Bytes (strBytes "ab" ++ strBytes "c" ++
      hexAscii (sha256Bytes ([] ++ [])))) =
    hexAscii (sha256Bytes (strBytes "a" ++ strBytes "bc" ++
      hexAscii (sha256Bytes ([] ++ []))))
  exact congrArg (fun l => hexAscii (sha256Bytes (l ++ hexAscii (sha256Bytes ([] ++ [])))))
    (by decide : strBytes "ab" ++ strBytes "c" = strBytes "a" ++ strBytes "bc")

lemma length_xorBytes (a b : Bytes) : (xorBytes a b).length = min a.length b.length := by
  simp [xorBytes]

lemma length_hmacSha512 (k m : Bytes) : (hmacSha512 k m).length = 64 :=
  length_sha512Bytes _

lemma length_pbkdf2Iter (p : Bytes) :
    ∀ n u acc, acc.length = 64 → (pbkdf2Iter p n u acc).length = 64 := by
  intro n
  induction n with
  | zero => intro u acc h; exact h
  | succ n ih =>
    intro u acc h
    rw [pbkdf2Iter]
    apply ih
    rw [length_xorBytes, h, length_hmacSha512]
    decide

lemma length_pbkdf2F (p s : Bytes) (c i : Nat) : (pbkdf2F p s c i).length = 64 :=
  length_pbkdf2Iter p (c - 1) _ _ (length_hmacSha512 _ _)

lemma length_pbkdf2_256 (p s : Bytes) : (pbkdf2HmacSha512 p s 100000 256).length = 256 := by
  unfold pbkdf2HmacSha512
  rw [show (256 + 63) / 64 = 4 from rfl, show List.range 4 = [0, 1, 2, 3] from rfl]
  simp [List.flatten, length_pbkdf2F]

lemma length_b64encode : ∀ bs : Bytes, (b64encode bs).length = 4 * ((bs.length + 2) / 3)
  | [] => by simp [b64encode]
  | [_] => by simp [b64encode]
  | [_, _] => by simp [b64encode]
  | b1 :: b2 :: b3 :: rest => by
    have ih := length_b64encode rest
    simp [b64encode, ih]
    omega

/-! ### C4 -/

/-- C4 (amended): Algorithm A secret derivation returns the first 32
characters of the base64 encoding of PBKDF2-HMAC-SHA512 over the password
with the serial as salt (empty salt for an unknown serial), 100000
iterations and 256-byte raw output; the result is always exactly 32 bytes and
the derivation is deterministic in `(password, serial)`.  (Distinct inputs do
not always produce distinct secrets: see the counterexample.) -/
theorem c4_hash_pbkdf2 (password serial : Bytes) :
    hashPbkdf2 password serial =
      (b64encode (pbkdf2HmacSha512 password (if serial.isEmpty then [] else serial)
        100000 256)).take 32 ∧
    (hashPbkdf2 password serial).length = 32 ∧
    (∀ p' s', password = p' → serial = s' →
      hashPbkdf2 password serial = hashPbkdf2 p' s') := by
  refine ⟨rfl, ?_, ?_⟩
  · unfold hashPbkdf2
    rw [List.length_take, length_b64encode, length_pbkdf2_256]
    decide
  · intro p' s' h1 h2
    rw [h1, h2]

/-- Witness for C4: the formula, the 32-byte length and determinism at a
concrete password and serial. -/
theorem c4_witness :
    hashPbkdf2 (strBytes "pw") (strBytes "123456") =
      (b64encode (pbkdf2HmacSha512 (strBytes "pw")
        (if (strBytes "123456").isEmpty then [] else strBytes "123456") 100000 256)).take 32 ∧
    (hashPbkdf2 (strBytes "pw") (strBytes "123456")).length = 32 ∧
    hashPbkdf2 (strBytes "pw") (strBytes "123456") =
      hashPbkdf2 (strBytes "pw") (strBytes "123456") := by
  have h := c4_hash_pbkdf2 (strBytes "pw") (strBytes "123456")
  exact ⟨h.1, h.2.1, h.2.2 _ _ rfl rfl⟩

lemma hmac512_pad_eq {k1 k2 : Bytes} (h1 : k1.length ≤ 128) (h2 : k2.length ≤ 128)
    (hpad : k1 ++ List.replicate (128 - k1.length) 0 =
      k2 ++ List.replicate (128 - k2.length) 0) :
    ∀ msg, hmacSha512 k1 msg = hmacSha512 k2 msg := by
  intro msg
  unfold hmacSha512
  dsimp only
  rw [if_no (by omega), if_no (by omega), hpad]

/-- Counterexample for C4: appending a NUL byte to the password leaves the
derived secret unchanged (HMAC pads its key with zero bytes to the block
size), so the result does not differ whenever the password differs. -/
theorem c4_counterexample :
    ([65] : Bytes) ≠ [65, 0] ∧
    hashPbkdf2 [65] (strBytes "123456") = hashPbkdf2 [65, 0] (strBytes "123456") := by
  refine ⟨by decide, ?_⟩
  have hkey : ∀ msg, hmacSha512 [65] msg = hmacSha512 [65, 0] msg :=
    hmac512_pad_eq (by decide) (by decide) (by decide)
  have hiter : ∀ n u acc, pbkdf2Iter [65] n u acc = pbkdf2Iter [65, 0] n u acc := by
    intro n
    induction n with
    | zero => intro u acc; rfl
    | succ n ih =>
      intro u acc
      rw [pbkdf2Iter, pbkdf2Iter, hkey]
      exact ih _ _
  have hF : ∀ salt c i, pbkdf2F [65] salt c i = pbkdf2F [65, 0] salt c i := by
    intro salt c i
    unfold pbkdf2F
    rw [hkey, hiter]
  unfold hashPbkdf2 pbkdf2HmacSha512
  simp only [hF]

lemma bcryptB64Encode_ok {b : Bytes} {length : Nat} (h0 : length ≠ 0)
    (h1 : length ≤ b.length) :
    bcryptB64Encode b length = .ok (bcryptB64Go length b) := by
  unfold bcryptB64Encode
  rw [if_neg (by
    simp only [Bool.or_eq_true, decide_eq_true_eq, not_or, Nat.not_lt]
    omega)]

/-! ### C5 -/

/-- C5 (amended): under the bcrypt selector, a serial containing a non-digit
character — and likewise the empty serial, since Python's `isdigit` is false
on the empty string — makes the derivation raise the input-validation error
(a Python `ValueError`, here an `Except.error`) before any bcrypt hashing is
applied, though after the password's SHA-256
preprocessing, which the source performs first; nonempty all-digit serials
succeed (the serial is validated and encoded, then bcrypt runs); and the
derivation is deterministic in `(password, serial)`. -/
theorem c5_hash_bcrypt_validation (password serial : Bytes) (its : Nat) :
    ((∃ ch ∈ serial, ¬(48 ≤ ch ∧ ch ≤ 57)) ∨ serial = [] →
      (hashBcrypt password serial its).1 = .error "Serial must be digits only" ∧
      (hashBcrypt password serial its).2 = [BcryptStep.sha256Password]) ∧
    (serial ≠ [] → (∀ ch ∈ serial, 48 ≤ ch ∧ ch ≤ 57) →
      (∃ out, (hashBcrypt password serial its).1 = .ok out) ∧
      (hashBcrypt password serial its).2 =
        [BcryptStep.sha256Password, BcryptStep.serialEncoded, BcryptStep.bcryptApplied]) ∧
    hashPassword password serial .bcrypt = (hashBcrypt password serial 8).1 ∧
    (∀ p' s', password = p' → serial = s' →
      hashPassword password serial .bcrypt = hashPassword p' s' .bcrypt) := by
  refine ⟨?_, ?_, rfl, ?_⟩
  · intro hbad
    have hdig : pyIsdigit serial = false := by
      cases hpd : pyIsdigit serial
      · rfl
      · exfalso
        unfold pyIsdigit at hpd
        simp only [Bool.and_eq_true, Bool.not_eq_true', List.isEmpty_eq_false,
          List.all_eq_true, decide_eq_true_eq, Bool.and_eq_true] at hpd
        rcases hbad with ⟨ch, hmem, hch⟩ | rfl
        · have := hpd.2 ch hmem
          omega
        · exact hpd.1 rfl
    have henc : bcryptjsEncodeBase64String serial 16 = .error "Serial must be digits only" := by
      unfold bcryptjsEncodeBase64String
      rw [hdig]
      rfl
    unfold hashBcrypt
    rw [henc]
    exact ⟨rfl, rfl⟩
  · intro hne hall
    have hdig : pyIsdigit serial = true := by
      unfold pyIsdigit
      simp only [Bool.and_eq_true, Bool.not_eq_true', List.isEmpty_eq_false,
        List.all_eq_true, decide_eq_true_eq, Bool.and_eq_true]
      exact ⟨hne, fun ch hc => by have := hall ch hc; omega⟩
    have henc : ∃ sb, bcryptjsEncodeBase64String serial 16 = .ok sb := by
      have hb : 16 ≤ (List.replicate (16 - (serial.map (fun ch => ch - 48)).length) 0 ++
          serial.map (fun ch => ch - 48)).length := by
        simp only [List.length_append, List.length_replicate, List.length_map]
        omega
      unfold bcryptjsEncodeBase64String
      rw [hdig]
      dsimp only
      rw [bcryptB64Encode_ok (by omega) hb]
      exact ⟨_, rfl⟩
    obtain ⟨sb, hsb⟩ := henc
    unfold hashBcrypt
    rw [hsb]
    exact ⟨⟨_, rfl⟩, rfl⟩
  · intro p' s' h1 h2
    rw [h1, h2]

/-- Witness for C5: a non-digit serial and the concrete error; a nonempty
all-digit serial and concrete success, with the full step trace. -/
theorem c5_witness :
    (hashBcrypt (strBytes "pw") (strBytes "12a4") 8).1 =
      .error "Serial must be digits only" ∧
    (∃ out, (hashBcrypt (strBytes "pw") (strBytes "123456") 8).1 = .ok out) ∧
    (hashBcrypt (strBytes "pw") (strBytes "123456") 8).2 =
      [BcryptStep.sha256Password, BcryptStep.serialEncoded, BcryptStep.bcryptApplied] := by
  have h1 := c5_hash_bcrypt_validation (strBytes "pw") (strBytes "12a4") 8
  have h2 := c5_hash_bcrypt_validation (strBytes "pw") (strBytes "123456") 8
  have hb := h2.2.1 (by decide) (by decide)
  exact ⟨(h1.1 (Or.inl ⟨97, by decide, by decide⟩)).1, hb.1, hb.2⟩

/-- Counterexample for C5: the empty serial consists entirely of decimal
digits (vacuously) yet the derivation raises the validation error rather
than succeeding; moreover the error is raised only after the password's
SHA-256 hashing step, not before all hashing. -/
theorem c5_counterexample :
    (∀ ch ∈ ([] : Bytes), 48 ≤ ch ∧ ch ≤ 57) ∧
    (hashBcrypt (strBytes "pw") [] 8).1 = .error "Serial must be digits only" ∧
    hashPassword (strBytes "pw") [] .bcrypt = .error "Serial must be digits only" ∧
    (hashBcrypt (strBytes "pw") (strBytes "x") 8).2 = [BcryptStep.sha256Password] :=
  ⟨fun ch h => absurd h (List.not_mem_nil ch), rfl, rfl, rfl⟩

lemma digitsVal_append_singleton (ds : Bytes) (d : Nat) :
    digitsVal (ds ++ [d]) = digitsVal ds * 10 + (d - 48) := by
  unfold digitsVal
  rw [List.foldl_append]
  rfl

lemma natAsciiAux_spec : ∀ fuel n, n < fuel →
    natAsciiAux fuel n ≠ [] ∧ (∀ d ∈ natAsciiAux fuel n, 48 ≤ d ∧ d ≤ 57) ∧
    digitsVal (natAsciiAux fuel n) = n := by
  intro fuel
  induction fuel with
  | zero => intro n h; omega
  | succ fuel ih =>
    intro n h
    by_cases h10 : n < 10
    · rw [natAsciiAux, if_pos h10]
      refine ⟨by simp, ?_, ?_⟩
      · intro d hd
        simp only [List.mem_singleton] at hd
        omega
      · show digitsVal [48 + n] = n
        unfold digitsVal
        simp only [List.foldl]
        omega
    · rw [natAsciiAux, if_neg h10]
      have hrec : n / 10 < fuel := by omega
      obtain ⟨hne, hall, hval⟩ := ih (n / 10) hrec
      refine ⟨by simp, ?_, ?_⟩
      · intro d hd
        rcases List.mem_append.mp hd with hd | hd
        · exact hall d hd
        · simp only [List.mem_singleton] at hd
          omega
      · rw [digitsVal_append_singleton, hval]
        omega

lemma natAscii_ne_nil (n : Nat) : natAscii n ≠ [] :=
  (natAsciiAux_spec (n + 1) n (by omega)).1

lemma natAscii_digits (n : Nat) : ∀ d ∈ natAscii n, 48 ≤ d ∧ d ≤ 57 :=
  (natAsciiAux_spec (n + 1) n (by omega)).2.1

lemma digitsVal_natAscii (n : Nat) : digitsVal (natAscii n) = n :=
  (natAsciiAux_spec (n + 1) n (by omega)).2.2

lemma takeDigits_spec (ds rest : Bytes) (hall : ∀ d ∈ ds, isDigitByte d = true)
    (hnd : noDigitHead rest = true) : takeDigits (ds ++ rest) = (ds, rest) := by
  unfold takeDigits
  induction ds with
  | nil =>
    simp only [List.nil_append]
    cases rest with
    | nil => rfl
    | cons c t =>
      unfold noDigitHead at hnd
      rw [List.takeWhile_cons, List.dropWhile_cons]
      simp only [Bool.not_eq_true'] at hnd
      rw [hnd]
      rfl
  | cons d t ih =>
    have hd : isDigitByte d = true := hall d (List.mem_cons_self d t)
    have ht := ih (fun x hx => hall x (List.mem_cons_of_mem d hx))
    simp only [Prod.mk.injEq] at ht
    rw [List.cons_append, List.takeWhile_cons, List.dropWhile_cons, hd]
    simp [ht.1, ht.2]

lemma hexDigitVal_hexChar {d : Nat} (h : d < 16) : hexDigitVal (hexChar d) = some d := by
  unfold hexChar hexDigitVal
  by_cases h10 : d < 10
  · rw [if_pos h10, if_pos (by simp only [Bool.and_eq_true, decide_eq_true_eq]; omega)]
    congr 1
    omega
  · rw [if_neg h10,
      if_neg (by simp only [Bool.and_eq_true, decide_eq_true_eq, not_and]; omega),
      if_pos (by simp only [Bool.and_eq_true, decide_eq_true_eq]; omega)]
    congr 1
    omega

lemma unescape1_val : unescape1 34 = some 34 ∧ unescape1 92 = some 92 ∧
    unescape1 98 = some 8 ∧ unescape1 116 = some 9 ∧ unescape1 110 = some 10 ∧
    unescape1 102 = some 12 ∧ unescape1 114 = some 13 := by
  refine ⟨rfl, ?_, ?_, ?_, ?_, ?_, ?_⟩ <;> rfl

lemma parseStrBody_short {e c : Nat} (he : e ≠ 117) (hu : unescape1 e = some c)
    {body rest : Bytes} {s : Bytes}
    (hbody : parseStrBody body = some (s, rest)) :
    parseStrBody (92 :: e :: body) = some (c :: s, rest) := by
  have h92a : (92 : Nat) ≠ 34 := by omega
  unfold parseStrBody
  rw [if_neg h92a, if_pos rfl]
  dsimp only
  rw [if_neg he, hu, hbody]

lemma parseStrBody_escape : ∀ s : Bytes, (∀ c ∈ s, c < 65536) →
    ∀ rest, parseStrBody (escapeStr s ++ (34 :: rest)) = some (s, rest) := by
  intro s
  induction s with
  | nil =>
    intro _ rest
    show parseStrBody (34 :: rest) = some ([], rest)
    unfold parseStrBody
    rw [if_pos rfl]
  | cons c cs ih =>
    intro hwf rest
    have hc : c < 65536 := hwf c (List.mem_cons_self _ _)
    have ihr := ih (fun x hx => hwf x (List.mem_cons_of_mem _ hx)) rest
    show parseStrBody (escapeChar c ++ escapeStr cs ++ (34 :: rest)) = some (c :: cs, rest)
    rw [List.append_assoc]
    unfold escapeChar
    by_cases h1 : c = 34
    · rw [if_pos h1]
      subst h1
      exact parseStrBody_short (by omega) unescape1_val.1 ihr
    · rw [if_neg h1]
      by_cases h2 : c = 92
      · rw [if_pos h2]
        subst h2
        exact parseStrBody_short (by omega) unescape1_val.2.1 ihr
      · rw [if_neg h2]
        by_cases h3 : c = 8
        · rw [if_pos h3]
          subst h3
          exact parseStrBody_short (by omega) unescape1_val.2.2.1 ihr
        · rw [if_neg h3]
          by_cases h4 : c = 9
          · rw [if_pos h4]
            subst h4
            exact parseStrBody_short (by omega) unescape1_val.2.2.2.1 ihr
          · rw [if_neg h4]
            by_cases h5 : c = 10
            · rw [if_pos h5]
              subst h5
              exact parseStrBody_short (by omega) unescape1_val.2.2.2.2.1 ihr
            · rw [if_neg h5]
              by_cases h6 : c = 12
              · rw [if_pos h6]
                subst h6
                exact parseStrBody_short (by omega) unescape1_val.2.2.2.2.2.1 ihr
              · rw [if_neg h6]
                by_cases h7 : c = 13
                · rw [if_pos h7]
                  subst h7
                  exact parseStrBody_short (by omega) unescape1_val.2.2.2.2.2.2 ihr
                · rw [if_neg h7]
                  by_cases h8 : c < 32 || 126 < c
                  · rw [if_pos h8]
                    show parseStrBody (92 :: 117 ::
                      (hexChar (c / 4096 % 16) :: hexChar (c / 256 % 16) ::
                       hexChar (c / 16 % 16) :: hexChar (c % 16) ::
                       (escapeStr cs ++ (34 :: rest)))) = some (c :: cs, rest)
                    unfold parseStrBody
                    rw [if_no (by omega), if_pos rfl]
                    dsimp only
                    rw [if_pos rfl,
                      hexDigitVal_hexChar (by omega), hexDigitVal_hexChar (by omega),
                      hexDigitVal_hexChar (by omega), hexDigitVal_hexChar (by omega), ihr]
                    dsimp only
                    have hval : (((c / 4096 % 16) * 16 + c / 256 % 16) * 16 + c / 16 % 16) * 16
                        + c % 16 = c := by omega
                    rw [hval]
                  · rw [if_neg h8]
                    show parseStrBody (c :: (escapeStr cs ++ (34 :: rest))) =
                      some (c :: cs, rest)
                    simp only [Bool.or_eq_true, decide_eq_true_eq, not_or, Nat.not_lt] at h8
                    unfold parseStrBody
                    rw [if_neg h1, if_neg h2, ihr]

lemma jdepth_pos (v : Json) : 1 ≤ jdepth v := by
  cases v <;> simp [jdepth]

lemma intAscii_negSucc (m : Nat) : intAscii (Int.negSucc m) = 45 :: natAscii (m + 1) := by
  unfold intAscii
  rw [if_pos (Int.negSucc_lt_zero m), Int.natAbs_negSucc]

lemma intAscii_ofNat (m : Nat) : intAscii (Int.ofNat m) = natAscii m := by
  unfold intAscii
  rw [if_neg (fun h => by rw [Int.ofNat_eq_natCast] at h; omega)]
  rfl

lemma natAscii_isDigit (m : Nat) : ∀ d ∈ natAscii m, isDigitByte d = true := by
  intro d hd
  have := natAscii_digits m d hd
  simp only [isDigitByte, Bool.and_eq_true, decide_eq_true_eq]
  omega

lemma headIs93_jdump (v : Json) (r : Bytes) : headIs 93 (jdump v ++ r) = false := by
  cases v with
  | jnull => rfl
  | jbool b => cases b <;> rfl
  | jstr s => rfl
  | jarr a => rfl
  | jobj o => rfl
  | jint n =>
    cases n with
    | ofNat m =>
      rw [show jdump (.jint (Int.ofNat m)) = intAscii (Int.ofNat m) from rfl, intAscii_ofNat]
      cases hna : natAscii m with
      | nil => exact absurd hna (natAscii_ne_nil m)
      | cons d ds =>
        have hd := natAscii_digits m d (by rw [hna]; exact List.mem_cons_self _ _)
        simp only [List.cons_append, headIs, decide_eq_true_eq]
        simp only [decide_eq_false_iff_not]
        omega
    | negSucc m =>
      rw [show jdump (.jint (Int.negSucc m)) = intAscii (Int.negSucc m) from rfl,
        intAscii_negSucc]
      rfl

lemma headIs93_jdumpArr_cons (w : Json) (tl : JsonArr) (r : Bytes) :
    headIs 93 (jdumpArr (.acons w tl) ++ r) = false := by
  cases tl with
  | anil => exact headIs93_jdump w r
  | acons x tl2 =>
    rw [show jdumpArr (.acons w (.acons x tl2)) =
      jdump w ++ (44 :: 32 :: jdumpArr (.acons x tl2)) from rfl, List.append_assoc]
    exact headIs93_jdump w _

lemma headIs125_jdumpObj_cons (k : Bytes) (w : Json) (tl : JsonObj) (r : Bytes) :
    headIs 125 (jdumpObj (.ocons k w tl) ++ r) = false := by
  cases tl <;> rfl

mutual
theorem parseJ_jdump (v : Json) : ∀ fuel rest, jdepth v ≤ fuel → jwf v = true →
    noDigitHead rest = true → parseJ fuel (jdump v ++ rest) = some (v, rest) := by
  cases v with
  | jnull =>
    intro fuel rest hf hwf hnd
    cases fuel with
    | zero => simp [jdepth] at hf
    | succ f => rfl
  | jbool b =>
    intro fuel rest hf hwf hnd
    cases fuel with
    | zero => simp [jdepth] at hf
    | succ f => cases b <;> rfl
  | jstr s =>
    intro fuel rest hf hwf hnd
    cases fuel with
    | zero => simp [jdepth] at hf
    | succ f =>
      have hchars : ∀ c ∈ s, c < 65536 := by
        simp only [jwf, List.all_eq_true, decide_eq_true_eq] at hwf
        exact hwf
      have hshape : jdump (.jstr s) ++ rest = 34 :: (escapeStr s ++ (34 :: rest)) := by
        rw [show jdump (.jstr s) = 34 :: (escapeStr s ++ [34]) from rfl, List.cons_append,
          List.append_assoc]
        rfl
      rw [hshape, parseJ]
      rw [if_no (by omega), if_no (by omega), if_no (by omega), if_pos rfl,
        parseStrBody_escape s hchars rest]
  | jint n =>
    intro fuel rest hf hwf hnd
    cases fuel with
    | zero => simp [jdepth] at hf
    | succ f =>
      cases n with
      | ofNat m =>
        rw [show jdump (.jint (Int.ofNat m)) = intAscii (Int.ofNat m) from rfl,
          intAscii_ofNat]
        cases hna : natAscii m with
        | nil => exact absurd hna (natAscii_ne_nil m)
        | cons d ds =>
          have hdig := natAscii_digits m
          rw [hna] at hdig
          have hd : 48 ≤ d ∧ d ≤ 57 := hdig d (List.mem_cons_self _ _)
          rw [List.cons_append]
          have htd : takeDigits (d :: (ds ++ rest)) = (d :: ds, rest) := by
            rw [show d :: (ds ++ rest) = (d :: ds) ++ rest from rfl]
            refine takeDigits_spec _ _ ?_ hnd
            intro x hx
            have := hdig x hx
            simp only [isDigitByte, Bool.and_eq_true, decide_eq_true_eq]
            omega
          show parseJ (f + 1) (d :: (ds ++ rest)) = some (.jint (Int.ofNat m), rest)
          rw [parseJ]
          rw [if_no (by omega), if_no (by omega), if_no (by omega), if_no (by omega),
            if_no (by omega), if_no (by omega), if_no (by omega),
            if_pos (by simp only [isDigitByte, Bool.and_eq_true, decide_eq_true_eq]; omega)]
          dsimp only
          rw [htd]
          have hval : digitsVal (d :: ds) = m := by
            rw [← hna]
            exact digitsVal_natAscii m
          rw [hval]
          rfl
      | negSucc m =>
        rw [show jdump (.jint (Int.negSucc m)) = intAscii (Int.negSucc m) from rfl,
          intAscii_negSucc, List.cons_append]
        have htd : takeDigits (natAscii (m + 1) ++ rest) = (natAscii (m + 1), rest) :=
          takeDigits_spec _ _ (natAscii_isDigit (m + 1)) hnd
        rw [parseJ]
        rw [if_no (by omega), if_no (by omega), if_no (by omega), if_no (by omega),
          if_no (by omega), if_no (by omega), if_pos rfl]
        dsimp only
        rw [htd]
        have hne : (natAscii (m + 1), rest).1.isEmpty = false := by
          rcases hna : natAscii (m + 1) with _ | ⟨d, ds⟩
          · exact absurd hna (natAscii_ne_nil _)
          · rfl
        rw [hne, if_neg Bool.false_ne_true, digitsVal_natAscii]
        have h1 : -((m : Int) + 1) = Int.negSucc m := (Int.negSucc_eq m).symm
        rw [show ((m + 1 : Nat) : Int) = (m : Int) + 1 from by push_cast; ring, h1]
  | jarr a =>
    intro fuel rest hf hwf hnd
    cases fuel with
    | zero => simp [jdepth] at hf
    | succ f =>
      cases a with
      | anil => rfl
      | acons w tl =>
        have hshape : jdump (.jarr (.acons w tl)) ++ rest =
            91 :: (jdumpArr (.acons w tl) ++ (93 :: rest)) := by
          rw [show jdump (.jarr (.acons w tl)) =
            91 :: (jdumpArr (.acons w tl) ++ [93]) from rfl, List.cons_append,
            List.append_assoc]
          rfl
        rw [hshape, parseJ]
        rw [if_no (by omega), if_no (by omega), if_no (by omega), if_no (by omega),
          if_pos rfl]
        rw [headIs93_jdumpArr_cons w tl (93 :: rest), if_neg Bool.false_ne_true]
        have harr := parseArrElems_jdump (.acons w tl) f rest
          (by simp only [jdepth] at hf; omega) hwf hnd (by intro h; exact JsonArr.noConfusion h)
        rw [harr]
  | jobj o =>
    intro fuel rest hf hwf hnd
    cases fuel with
    | zero => simp [jdepth] at hf
    | succ f =>
      cases o with
      | onil => rfl
      | ocons k w tl =>
        have hshape : jdump (.jobj (.ocons k w tl)) ++ rest =
            123 :: (jdumpObj (.ocons k w tl) ++ (125 :: rest)) := by
          rw [show jdump (.jobj (.ocons k w tl)) =
            123 :: (jdumpObj (.ocons k w tl) ++ [125]) from rfl, List.cons_append,
            List.append_assoc]
          rfl
        rw [hshape, parseJ]
        rw [if_no (by omega), if_no (by omega), if_no (by omega), if_no (by omega),
          if_no (by omega), if_pos rfl]
        rw [headIs125_jdumpObj_cons k w tl (125 :: rest), if_neg Bool.false_ne_true]
        have hobj := parseObjFields_jdump (.ocons k w tl) f rest
          (by simp only [jdepth] at hf; omega) hwf hnd (by intro h; exact JsonObj.noConfusion h)
        rw [hobj]

theorem parseArrElems_jdump (a : JsonArr) : ∀ fuel rest, adepth a ≤ fuel →
    jwfArr a = true → noDigitHead rest = true → a ≠ .anil →
    parseArrElems fuel (jdumpArr a ++ (93 :: rest)) = some (a, rest) := by
  cases a with
  | anil => intro fuel rest _ _ _ hne; exact absurd rfl hne
  | acons v tl =>
    intro fuel rest hf hwf hnd _
    cases fuel with
    | zero => simp [adepth] at hf
    | succ f =>
      simp only [adepth] at hf
      simp only [jwfArr, Bool.and_eq_true] at hwf
      cases tl with
      | anil =>
        rw [show jdumpArr (.acons v .anil) = jdump v from rfl, parseArrElems,
          parseJ_jdump v f (93 :: rest) (by simp [adepth] at hf; omega) hwf.1 rfl]
      | acons x tl2 =>
        have hshape : jdumpArr (.acons v (.acons x tl2)) ++ (93 :: rest) =
            jdump v ++ (44 :: 32 :: (jdumpArr (.acons x tl2) ++ (93 :: rest))) := by
          rw [show jdumpArr (.acons v (.acons x tl2)) =
            jdump v ++ (44 :: 32 :: jdumpArr (.acons x tl2)) from rfl, List.append_assoc]
          rfl
        rw [hshape, parseArrElems,
          parseJ_jdump v f (44 :: 32 :: (jdumpArr (.acons x tl2) ++ (93 :: rest)))
            (by simp [adepth] at hf ⊢; omega) hwf.1 rfl]
        dsimp only
        rw [parseArrElems_jdump (.acons x tl2) f rest (by simp [adepth] at hf ⊢; omega)
          hwf.2 hnd (by intro h; exact JsonArr.noConfusion h)]

theorem parseObjFields_jdump (o : JsonObj) : ∀ fuel rest, odepth o ≤ fuel →
    jwfObj o = true → noDigitHead rest = true → o ≠ .onil →
    parseObjFields fuel (jdumpObj o ++ (125 :: rest)) = some (o, rest) := by
  cases o with
  | onil => intro fuel rest _ _ _ hne; exact absurd rfl hne
  | ocons k v tl =>
    intro fuel rest hf hwf hnd _
    cases fuel with
    | zero => simp [odepth] at hf
    | succ f =>
      simp only [odepth] at hf
      simp only [jwfObj, Bool.and_eq_true, List.all_eq_true, decide_eq_true_eq] at hwf
      cases tl with
      | onil =>
        have hshape : jdumpObj (.ocons k v .onil) ++ (125 :: rest) =
            34 :: (escapeStr k ++ (34 :: (58 :: 32 :: (jdump v ++ (125 :: rest))))) := by
          rw [show jdumpObj (.ocons k v .onil) =
            (34 :: (escapeStr k ++ [34])) ++ (58 :: 32 :: jdump v) from rfl]
          simp [List.append_assoc]
        rw [hshape, parseObjFields,
          parseStrBody_escape k hwf.1.1 (58 :: 32 :: (jdump v ++ (125 :: rest)))]
        dsimp only
        rw [parseJ_jdump v f (125 :: rest) (by omega) hwf.1.2 rfl]
      | ocons k2 v2 tl2 =>
        have hshape : jdumpObj (.ocons k v (.ocons k2 v2 tl2)) ++ (125 :: rest) =
            34 :: (escapeStr k ++ (34 :: (58 :: 32 :: (jdump v ++
              (44 :: 32 :: (jdumpObj (.ocons k2 v2 tl2) ++ (125 :: rest))))))) := by
          rw [show jdumpObj (.ocons k v (.ocons k2 v2 tl2)) =
            ((34 :: (escapeStr k ++ [34])) ++ (58 :: 32 :: jdump v)) ++
              (44 :: 32 :: jdumpObj (.ocons k2 v2 tl2)) from rfl]
          simp [List.append_assoc]
        rw [hshape, parseObjFields,
          parseStrBody_escape k hwf.1.1 _]
        dsimp only
        rw [parseJ_jdump v f (44 :: 32 :: (jdumpObj (.ocons k2 v2 tl2) ++ (125 :: rest)))
          (by omega) hwf.1.2 rfl]
        dsimp only
        rw [parseObjFields_jdump (.ocons k2 v2 tl2) f rest (by omega) hwf.2 hnd
          (by intro h; exact JsonObj.noConfusion h)]
end

lemma length_hmacSha256 (k m : Bytes) : (hmacSha256 k m).length = 32 :=
  length_sha256Bytes _

/-! ### C6 -/

/-- C6 (amended): for a message map carrying a `requestId`, the signing
envelope's data field is the JSON serialization of the message and parses
back through the JSON parser to exactly the original message; the type tag is
`securedMsg`; the request id is the original request id (as interpolated by
the f-string) suffixed with `sm`; and the hmac field is the 64
lowercase-hex-character HMAC-SHA256 of the serialized payload keyed by the
secret.  (The hmac does not differ for every pair of distinct secrets: see
the counterexample.) -/
theorem c6_sign_secured_message (message : JsonObj) (secret : Bytes) (rid : Json)
    (env : SecuredEnvelope)
    (hrid : jGet message (strBytes "requestId") = some rid)
    (hwf : jwfObj message = true)
    (henv : signSecuredMessage message secret = some env) :
    env.data = jdump (.jobj message) ∧
    parseJ (jdepth (.jobj message)) env.data = some (.jobj message, []) ∧
    env.typeTag = strBytes "securedMsg" ∧
    env.requestId = pyFStr rid ++ strBytes "sm" ∧
    env.hmac = hexAscii (hmacSha256 secret (jdump (.jobj message))) ∧
    env.hmac.length = 64 ∧
    (∀ c ∈ env.hmac, isHexLower c = true) := by
  unfold signSecuredMessage at henv
  rw [hrid] at henv
  dsimp only at henv
  injection henv with henv
  subst henv
  refine ⟨rfl, ?_, rfl, rfl, rfl, ?_, ?_⟩
  · have h := parseJ_jdump (.jobj message) (jdepth (.jobj message)) [] (le_refl _) hwf rfl
    rw [List.append_nil] at h
    exact h
  · show (hexAscii (hmacSha256 secret (jdump (.jobj message)))).length = 64
    rw [length_hexAscii, length_hmacSha256]
  · show ∀ c ∈ hexAscii (hmacSha256 secret (jdump (.jobj message))), isHexLower c = true
    exact mem_hexAscii (fun b hb => mem_sha256Bytes_lt b hb)

/-- Witness for C6 at the concrete `setValue` message (requestId 7) and a
concrete secret: the envelope exists, its payload parses back to the message,
and the tag / request id / hmac fields have the claimed shapes. -/
theorem c6_witness :
    (∃ env, signSecuredMessage demoMessage (strBytes "sec") = some env ∧
      parseJ (jdepth (.jobj demoMessage)) env.data = some (.jobj demoMessage, []) ∧
      env.typeTag = strBytes "securedMsg" ∧
      env.requestId = strBytes "7sm" ∧
      env.hmac.length = 64) := by
  obtain ⟨env, henv⟩ : ∃ env, signSecuredMessage demoMessage (strBytes "sec") = some env :=
    ⟨_, rfl⟩
  have h := c6_sign_secured_message demoMessage (strBytes "sec") (.jint 7) env
    rfl rfl henv
  refine ⟨env, henv, h.2.1, h.2.2.1, ?_, h.2.2.2.2.2.1⟩
  rw [h.2.2.2.1]
  decide

lemma hmac256_pad_eq {k1 k2 : Bytes} (h1 : k1.length ≤ 64) (h2 : k2.length ≤ 64)
    (hpad : k1 ++ List.replicate (64 - k1.length) 0 =
      k2 ++ List.replicate (64 - k2.length) 0) :
    ∀ msg, hmacSha256 k1 msg = hmacSha256 k2 msg := by
  intro msg
  unfold hmacSha256
  dsimp only
  rw [if_no (by omega), if_no (by omega), hpad]

/-- Counterexample for C6: appending a NUL byte to the secret leaves the
envelope's hmac unchanged (HMAC pads its key with zero bytes to the block
size), so the hmac does not differ whenever the secret differs. -/
theorem c6_counterexample :
    ([1] : Bytes) ≠ [1, 0] ∧
    (signSecuredMessage demoMessage [1]).map (fun e => e.hmac) =
      (signSecuredMessage demoMessage [1, 0]).map (fun e => e.hmac) := by
  refine ⟨by decide, ?_⟩
  have hk : ∀ msg, hmacSha256 [1] msg = hmacSha256 [1, 0] msg :=
    hmac256_pad_eq (by decide) (by decide) (by decide)
  have e1 : (signSecuredMessage demoMessage [1]).map (fun e => e.hmac) =
      some (hexAscii (hmacSha256 [1] (jdump (.jobj demoMessage)))) := rfl
  have e2 : (signSecuredMessage demoMessage [1, 0]).map (fun e => e.hmac) =
      some (hexAscii (hmacSha256 [1, 0] (jdump (.jobj demoMessage)))) := rfl
  rw [e1, e2, hk]

/-! ### Model validation against published test vectors -/

/-- FIPS 180-4 test vector: SHA-256 of "abc". -/
theorem sha256_vector_abc :
    hexAscii (sha256Bytes (strBytes "abc")) =
      strBytes "ba7816bf8f01cfea414140de5dae2223b00361a396177a9cb410ff61f20015ad" := by
  decide

/-- SHA-256 of the empty message. -/
theorem sha256_vector_empty :
    hexAscii (sha256Bytes []) =
      strBytes "e3b0c44298fc1c149afbf4c8996fb92427ae41e4649b934ca495991b7852b855" := by
  decide

/-- FIPS 180-4 test vector: SHA-512 of "abc". -/
theorem sha512_vector_abc :
    hexAscii (sha512Bytes (strBytes "abc")) =
      strBytes ("ddaf35a193617abacc417349ae20413112e6fa4e89a97ea20a9eeee64b55d39a" ++
        "2192992a274fc1a836ba3c23a3feebbd454d4423643ce80e2a9ac94fa54ca49f") := by
  decide

/-- RFC 4231 test case 1: HMAC-SHA256 with a 20-byte 0x0b key over
"Hi There". -/
theorem hmacSha256_vector_rfc4231 :
    hexAscii (hmacSha256 (List.replicate 20 11) (strBytes "Hi There")) =
      strBytes "b0344c61d8db38535ca8afceaf0bf12b881dc200c9833da726e9376c2e32cff7" := by
  decide

/-- RFC 4648 base64 vectors, covering all three padding shapes. -/
theorem b64encode_vectors :
    b64encode (strBytes "Man") = strBytes "TWFu" ∧
    b64encode (strBytes "Ma") = strBytes "TWE=" ∧
    b64encode (strBytes "M") = strBytes "TQ==" ∧
    b64encode (strBytes "light work.") = strBytes "bGlnaHQgd29yay4=" := by
  refine ⟨?_, ?_, ?_, ?_⟩ <;> decide

/-- The bcrypt.js serial encoding agrees with the reference implementation on
the serial "123456" padded to 16 bytes (22 salt characters). -/
theorem bcryptjs_encode_vector :
    bcryptjsEncodeBase64String (strBytes "123456") 16 =
      .ok (strBytes "..............CA.uOD/e") := by
  rfl
